import Mathlib

/-!
Shallow embedding of the adversary-behavior and combat-resolution core of the
star-wars-shooter repository (src/enemy.ts, src/main.ts, player controller).

Conventions of the embedding:
* JS `number` is modelled by `ℚ` (every float is a rational; float rounding is
  idealised away, as the spec's properties are stated over exact arithmetic).
* `THREE.Vector3` is `Vec3` with exact component arithmetic.
* Non-seeded randomness (`Math.random()`) is modelled as an explicit input
  stream `rand : ℕ → ℚ` of draws; uniformity of a draw is expressed by range
  hypotheses `0 ≤ rand k < 1` where a claim needs them.
* Transcendental operations (trigonometry for the orbit direction and wander
  term, Euclidean length / `sqrt`, quaternion slerp) are supplied by an
  environment record `Env`; the Euclidean-length oracle is constrained where a
  claim needs it by the hypothesis `length v * length v = normSq v`.
* Entity orientation (the root quaternion) is modelled by the rotation map
  `orient : Vec3 → Vec3` it induces; the facing vector is `orient ⟨0,0,-1⟩`,
  exactly as the code computes `(0,0,-1).applyQuaternion(root.quaternion)`.
* Rendering, audio, health-bar visuals and the scene graph are external
  collaborators and are not part of the state.
-/

namespace StarWars

/-- Component-wise rational 3-vector (embedding of `THREE.Vector3`). -/
structure Vec3 where
  x : ℚ
  y : ℚ
  z : ℚ
deriving DecidableEq

def Vec3.add (a b : Vec3) : Vec3 := ⟨a.x + b.x, a.y + b.y, a.z + b.z⟩

def Vec3.sub (a b : Vec3) : Vec3 := ⟨a.x - b.x, a.y - b.y, a.z - b.z⟩

def Vec3.smul (v : Vec3) (c : ℚ) : Vec3 := ⟨v.x * c, v.y * c, v.z * c⟩

def Vec3.divScalar (v : Vec3) (c : ℚ) : Vec3 := ⟨v.x / c, v.y / c, v.z / c⟩

def Vec3.dot (a b : Vec3) : ℚ := a.x * b.x + a.y * b.y + a.z * b.z

/-- Embedding of `lengthSq` / `distanceToSquared` building block of `THREE.Vector3`. -/
def Vec3.normSq (v : Vec3) : ℚ := Vec3.dot v v

def Vec3.zero : Vec3 := ⟨0, 0, 0⟩

/-- Embedding of `THREE.Vector3.lerpVectors(a, b, t)`. -/
def lerpVectors (a b : Vec3) (t : ℚ) : Vec3 :=
  ⟨a.x + (b.x - a.x) * t, a.y + (b.y - a.y) * t, a.z + (b.z - a.z) * t⟩

/-- Embedding of `THREE.MathUtils.smootherstep`: clamp to [0,1] then quintic ease. -/
def smootherstep (x low high : ℚ) : ℚ :=
  let t := max 0 (min 1 ((x - low) / (high - low)))
  t * t * t * (t * (t * 6 - 15) + 10)

/-- Embedding of `THREE.MathUtils.randFloat(low, high)` applied to a draw `u`. -/
def randFloat (u low high : ℚ) : ℚ := low + u * (high - low)

/-- Embedding of `THREE.MathUtils.randFloatSpread(range)` applied to a draw `u`. -/
def randFloatSpread (u range : ℚ) : ℚ := range * (0.5 - u)

/-- Embedding of `enum EnemyType` of enemy.ts. -/
inductive EnemyType where
  | fighter
  | interceptor
deriving DecidableEq

/-- Embedding of `type EnemyArchetype` of enemy.ts (the `modelPath` string is asset glue
and is omitted; muzzle offsets and numeric tuning are kept). -/
structure EnemyArchetype where
  muzzleOffsets : List Vec3
  bulletSpeed : ℚ
  bulletLife : ℚ
  fireDelayRange : ℚ × ℚ
  health : Int
  speedTarget : ℚ
  maxSpeed : ℚ
  maxAccel : ℚ
  aimSpread : ℚ
  wanderSpeedRange : ℚ × ℚ
  collisionFailChance : ℚ
  sizeTarget : ℚ

/-- The Fighter archetype record of `EnemySquadron.archetypes`. -/
def fighterArchetype : EnemyArchetype where
  muzzleOffsets := [⟨1.8, -0.2, -2.6⟩, ⟨-1.8, -0.2, -2.6⟩]
  bulletSpeed := 260
  bulletLife := 4
  fireDelayRange := (800, 1350)
  health := 3
  speedTarget := 170
  maxSpeed := 230
  maxAccel := 130
  aimSpread := 0.18
  wanderSpeedRange := (0.6, 1.4)
  collisionFailChance := 0.08
  sizeTarget := 12

/-- The Interceptor archetype record of `EnemySquadron.archetypes`. -/
def interceptorArchetype : EnemyArchetype where
  muzzleOffsets :=
    [⟨1.6, 0.2, -2.4⟩, ⟨-1.6, 0.2, -2.4⟩, ⟨1.6, -0.3, -2.4⟩, ⟨-1.6, -0.3, -2.4⟩]
  bulletSpeed := 270
  bulletLife := 4
  fireDelayRange := (700, 1200)
  health := 3
  speedTarget := 204
  maxSpeed := 276
  maxAccel := 156
  aimSpread := 0.14
  wanderSpeedRange := (0.9, 1.6)
  collisionFailChance := 0.04
  sizeTarget := 12

/-- Embedding of `this.archetypes[type]`. -/
def archetypeOf : EnemyType → EnemyArchetype
  | EnemyType.fighter => fighterArchetype
  | EnemyType.interceptor => interceptorArchetype

/-- Embedding of `type EnemyShip` of enemy.ts. `rootId` stands for the identity of the
`root` scene object (used for `===` comparisons and `destroyEnemyByRoot`);
`orient` is the rotation of the root quaternion as a map on vectors; the
health-bar and hit-flash sprite handles are visual attachments and carry no
simulation state beyond `hitFlashTimer`. -/
structure EnemyShip where
  type : EnemyType
  archetype : EnemyArchetype
  rootId : ℕ
  position : Vec3
  orient : Vec3 → Vec3
  velocity : Vec3
  orbitAngle : ℚ
  radiusOffset : ℚ
  wanderPhase : ℚ
  wanderSpeed : ℚ
  formationOffset : Vec3
  approachProgress : ℚ
  approachStart : Vec3
  approachTarget : Vec3
  health : Int
  lastShot : ℚ
  fireDelay : ℚ
  boundingRadius : ℚ
  hitFlashTimer : ℚ

/-- Embedding of `type Bullet` of types.ts (`mesh` is represented by its position). -/
structure Bullet where
  position : Vec3
  velocity : Vec3
  life : ℚ
deriving DecidableEq

/-- Embedding of `type Obstacle` of enemy.ts. -/
structure Obstacle where
  position : Vec3
  radius : ℚ
deriving DecidableEq

/-- Oracles for the operations the code delegates to the platform:
the random stream, `Vector3.randomDirection()` results, the trigonometric
orbit/wander terms, Euclidean length, quaternion slerp, `Math.PI`, and the
loaded-model bounding sizes. Each field's intended denotation is noted. -/
structure Env where
  /-- stream of `Math.random()` draws. -/
  rand : ℕ → ℚ
  /-- stream of `new THREE.Vector3().randomDirection()` results
  (consumes two draws of the stream). -/
  randomDirection : ℕ → Vec3
  /-- Embedding of `(cos a, sin(a*1.4)*0.35, sin a).normalize()` as used by both the
  spawn-target and the orbit-target computation. -/
  orbitUnit : ℚ → Vec3
  /-- the wander vector `(sin(p*1.3)*26, cos(p*0.9)*18, cos(p*1.1)*26)`. -/
  wanderVec : ℚ → Vec3
  /-- Euclidean length `sqrt (normSq v)`. -/
  length : Vec3 → ℚ
  /-- quaternion slerp by 0.12 toward the rotation taking `(0,0,-1)` to the
  given look direction, acting on the current orientation map. -/
  slerpOrient : (Vec3 → Vec3) → Vec3 → (Vec3 → Vec3)
  /-- Embedding of `Math.PI`. -/
  pi : ℚ
  /-- scaled bounding-box size of the loaded prefab for each type. -/
  prefabSize : EnemyType → Vec3

/-- Embedding of `THREE.Vector3.normalize()`: divide by `length() || 1`. -/
def Env.normalize (env : Env) (v : Vec3) : Vec3 :=
  let len := env.length v
  v.divScalar (if len = 0 then 1 else len)

/-- Embedding of `THREE.Vector3.clampLength(0, maxLen)`. -/
def clampLength (env : Env) (v : Vec3) (maxLen : ℚ) : Vec3 :=
  let len := env.length v
  (v.divScalar (if len = 0 then 1 else len)).smul (max 0 (min maxLen len))

/-- Embedding of `private readonly approachDuration = 3`. -/
def approachDuration : ℚ := 3

/-- Embedding of `private readonly avoidanceRadius = 22`. -/
def avoidanceRadius : ℚ := 22

/-- Embedding of `private readonly obstacleBuffer = 30`. -/
def obstacleBuffer : ℚ := 30

/-- Embedding of `EnemySquadron` mutable state: entity list, enemy-projectile list, the
cooperative-cancellation flags and the construction-time hitbox multiplier. -/
structure Squadron where
  enemies : List EnemyShip
  bullets : List Bullet
  fireEnabled : Bool
  active : Bool
  hitboxMultiplier : ℚ

/-- The `EnemySquadron` constructor: field initialisers
(`fireEnabled = true`, `active = false`, empty lists) and
`hitboxMultiplier = isMobile ? 0.6 : 0.3`. -/
def mkSquadron (isMobile : Bool) : Squadron where
  enemies := []
  bullets := []
  fireEnabled := true
  active := false
  hitboxMultiplier := if isMobile then 0.6 else 0.3

/-- Embedding of `getCount()`. -/
def Squadron.getCount (sq : Squadron) : ℕ := sq.enemies.length

/-- Embedding of `getEnemyTypes()`. -/
def Squadron.getEnemyTypes (sq : Squadron) : List EnemyType :=
  sq.enemies.map (fun e => e.type)

/-- The hit test of `handlePlayerHitsEnemies`:
`distanceToSquared(bullet, enemy) ≤ (boundingRadius * (1 + hitboxMultiplier))²`. -/
def hitTest (m : ℚ) (e : EnemyShip) (b : Bullet) : Bool :=
  decide ((b.position.sub e.position).normSq ≤
    (e.boundingRadius * (1 + m)) * (e.boundingRadius * (1 + m)))

/-- Inner loop of `handlePlayerHitsEnemies`: scan the player-bullet list from
the highest index downward (the source iterates `j` from `length-1` to `0`),
remove the first bullet found inside the hit radius and stop (`break`).
`none` means no bullet hit. -/
def scanRev (m : ℚ) (e : EnemyShip) : List Bullet → Option (List Bullet)
  | [] => none
  | b :: rest =>
    match scanRev m e rest with
    | some rest' => some (b :: rest')
    | none => if hitTest m e b then some rest else none

/-- Body of the outer loop of `handlePlayerHitsEnemies` for one enemy:
on a hit, remove that bullet, decrement health by 1, refresh the hit-flash
timer, and on `health ≤ 0` destroy the enemy (drop it from the list; the
explosion effect is an external collaborator) and report its archetype tag
to the destroyed-event callback. -/
def processEnemy (m : ℚ) (e : EnemyShip) (bs : List Bullet) :
    Option EnemyShip × List Bullet × List EnemyType :=
  match scanRev m e bs with
  | none => (some e, bs, [])
  | some bs' =>
    let e' := { e with health := e.health - 1, hitFlashTimer := 0.4 }
    if e'.health ≤ 0 then (none, bs', [e.type])
    else (some e', bs', [])

/-- Embedding of `handlePlayerHitsEnemies`: enemies are scanned from the highest index
down (so the in-place `splice` cannot skip elements); the callback list
collects the `onEnemyDestroyed` invocations in call order. -/
def handlePlayerHitsEnemies (m : ℚ) :
    List EnemyShip → List Bullet → List EnemyShip × List Bullet × List EnemyType
  | [], bs => ([], bs, [])
  | e :: rest, bs =>
    let r := handlePlayerHitsEnemies m rest bs
    match processEnemy m e r.2.1 with
    | (none, bs2, evs) => (r.1, bs2, r.2.2 ++ evs)
    | (some e', bs2, evs) => (e' :: r.1, bs2, r.2.2 ++ evs)

/-- Iterated damage phase: one `handlePlayerHitsEnemies` call per simulated
tick, each with that tick's player-bullet list; collects all destroyed
events. -/
def hitTicks (m : ℚ) :
    List (List Bullet) → List EnemyShip → List EnemyShip × List EnemyType
  | [], es => (es, [])
  | bs :: rest, es =>
    let r := handlePlayerHitsEnemies m es bs
    let r2 := hitTicks m rest r.1
    (r2.1, r.2.2 ++ r2.2)

/-- Embedding of `updateMovement`. `all` is the current enemy list (the source reads
`this.enemies` for pairwise avoidance, skipping the entity itself by object
identity, here by `rootId`); `k` indexes the random stream and the returned
counter accounts for the draw consumed by the obstacle-avoidance failure
roll, which the source only makes when at least one obstacle is in range. -/
def updateMovement (env : Env) (k : ℕ) (all : List EnemyShip) (e0 : EnemyShip)
    (delta : ℚ) (playerPos : Vec3) (obstacles : List Obstacle) : EnemyShip × ℕ :=
  let orbitRadius : ℚ := 110
  let e := { e0 with orbitAngle := e0.orbitAngle + delta * 0.55,
                     wanderPhase := e0.wanderPhase + delta * e0.wanderSpeed }
  let wander := env.wanderVec e.wanderPhase
  let baseTarget :=
    (playerPos.add ((env.orbitUnit e.orbitAngle).smul (orbitRadius + e.radiusOffset))).add
      e.formationOffset
  if e.approachProgress < 1 then
    let p := min 1 (e.approachProgress + delta / approachDuration)
    let eased := smootherstep p 0 1
    ({ e with approachTarget := baseTarget,
              approachProgress := p,
              position := lerpVectors e.approachStart baseTarget eased,
              velocity := Vec3.zero }, k)
  else
    let desiredPos := baseTarget.add wander
    let desiredVel := (env.normalize (desiredPos.sub e.position)).smul e.archetype.speedTarget
    let avoidance1 := all.foldl (fun acc other =>
      if other.rootId = e.rootId then acc
      else
        let offset := e.position.sub other.position
        let dist := env.length offset
        if dist < avoidanceRadius ∧ 0.0001 < dist then
          acc.add ((env.normalize offset).smul ((avoidanceRadius - dist) * 2))
        else acc) Vec3.zero
    let op := obstacles.foldl (fun acc obstacle =>
      let offset := e.position.sub obstacle.position
      let dist := env.length offset
      let safeDist := obstacle.radius + obstacleBuffer
      if dist < safeDist ∧ 0.001 < dist then
        (acc.1.add ((env.normalize offset).smul ((safeDist - dist) * 2.2)), acc.2 + 1)
      else acc) (avoidance1, (0 : ℕ))
    let ar :=
      if 0 < op.2 then
        (if env.rand k < e.archetype.collisionFailChance then op.1.smul 0.35 else op.1, k + 1)
      else (op.1, k)
    let steer := clampLength env ((desiredVel.add ar.1).sub e.velocity) (e.archetype.maxAccel * delta)
    let vel := clampLength env (e.velocity.add steer) e.archetype.maxSpeed
    ({ e with velocity := vel, position := e.position.add (vel.smul delta) }, ar.2)

/-- Embedding of `updateOrientation`: blend velocity direction (70%) with direction to the
player (30%), fall back to the player direction when velocity is near zero,
and slerp the root quaternion toward the resulting look direction. -/
def updateOrientation (env : Env) (e : EnemyShip) (playerPos : Vec3) : EnemyShip :=
  let toP := env.normalize (playerPos.sub e.position)
  let forward := if 0.0001 < e.velocity.normSq then env.normalize e.velocity else toP
  let lookDir := env.normalize ((forward.smul 0.7).add (toP.smul 0.3))
  { e with orient := env.slerpOrient e.orient lookDir }

/-- The state part of `updateHitFlash` (sprite opacity/scale are visual). -/
def updateHitFlash (e : EnemyShip) (delta : ℚ) : EnemyShip :=
  if e.hitFlashTimer ≤ 0 then e
  else { e with hitFlashTimer := max 0 (e.hitFlashTimer - delta * 2.5) }

/-- One muzzle iteration of `spawnLaser.forEach`: position the laser at the
world-space muzzle nudged 1.4 forward, draw the deliberate-miss coin
(`rand k < 0.5`); a miss displaces the target by a random direction times
`10 + rand*12`, an aimed shot jitters the target per axis by
`randFloatSpread aimSpread`; velocity is the normalized aim direction times
the archetype bullet speed, lifetime the archetype bullet life. Draw
accounting: the miss branch uses the coin, the radius draw and the two draws
of `randomDirection`; the aimed branch uses the coin and three jitter draws
(four draws either way; the audio playback-rate draw is external). -/
def spawnOne (env : Env) (k : ℕ) (e : EnemyShip) (forward playerPos : Vec3)
    (offset : Vec3) : Bullet × ℕ :=
  let worldOffset := e.orient offset
  let lpos := (e.position.add worldOffset).add (forward.smul 1.4)
  if env.rand k < 0.5 then
    let missRadius := 10 + env.rand (k + 1) * 12
    let targetPos := playerPos.add ((env.randomDirection (k + 2)).smul missRadius)
    let aimDir := env.normalize (targetPos.sub lpos)
    (⟨lpos, aimDir.smul e.archetype.bulletSpeed, e.archetype.bulletLife⟩, k + 4)
  else
    let s := e.archetype.aimSpread
    let targetPos := playerPos.add
      ⟨randFloatSpread (env.rand (k + 1)) s, randFloatSpread (env.rand (k + 2)) s,
        randFloatSpread (env.rand (k + 3)) s⟩
    let aimDir := env.normalize (targetPos.sub lpos)
    (⟨lpos, aimDir.smul e.archetype.bulletSpeed, e.archetype.bulletLife⟩, k + 4)

/-- The `forEach` over `enemy.archetype.muzzleOffsets` in `spawnLaser`,
collecting the pushed bullets in order. -/
def spawnLaserGo (env : Env) (e : EnemyShip) (forward playerPos : Vec3) :
    List Vec3 → ℕ → List Bullet × ℕ
  | [], k => ([], k)
  | off :: rest, k =>
    let s := spawnOne env k e forward playerPos off
    let r := spawnLaserGo env e forward playerPos rest s.2
    (s.1 :: r.1, r.2)

/-- Embedding of `spawnLaser` (laser mesh construction and audio are external). -/
def spawnLaser (env : Env) (k : ℕ) (e : EnemyShip) (forward playerPos : Vec3) :
    List Bullet × ℕ :=
  spawnLaserGo env e forward playerPos e.archetype.muzzleOffsets k

/-- Embedding of `tryShoot`: gates in source order (fire-enabled flag, approach progress,
cooldown, facing dot ≥ 0.78), then stamp `lastShot`, redraw the fire delay
uniformly from the archetype range, and spawn one laser per muzzle. -/
def tryShoot (env : Env) (k : ℕ) (fireEnabled : Bool) (e : EnemyShip)
    (playerPos : Vec3) (now : ℚ) : EnemyShip × List Bullet × ℕ :=
  if fireEnabled = false then (e, [], k)
  else if e.approachProgress < 1 then (e, [], k)
  else if now - e.lastShot < e.fireDelay then (e, [], k)
  else
    let forward := e.orient ⟨0, 0, -1⟩
    let toPlayer := env.normalize (playerPos.sub e.position)
    let aimDot := forward.dot toPlayer
    if aimDot < 0.78 then (e, [], k)
    else
      let e1 := { e with lastShot := now,
                         fireDelay := randFloat (env.rand k) e.archetype.fireDelayRange.1
                           e.archetype.fireDelayRange.2 }
      let r := spawnLaser env (k + 1) e1 forward playerPos
      (e1, r.1, r.2)

/-- The per-entity body of the update loop: movement, orientation, hit-flash
decay (the health-bar pass only moves visuals), then the fire decision. -/
def entityTick (env : Env) (k : ℕ) (all : List EnemyShip) (e : EnemyShip)
    (delta : ℚ) (playerPos : Vec3) (obstacles : List Obstacle) (now : ℚ)
    (fireEnabled : Bool) : EnemyShip × List Bullet × ℕ :=
  let m := updateMovement env k all e delta playerPos obstacles
  let e2 := updateOrientation env m.1 playerPos
  let e3 := updateHitFlash e2 delta
  tryShoot env m.2 fireEnabled e3 playerPos now

/-- The `for (i = enemies.length - 1; i >= 0; i -= 1)` loop of `update`:
entities are processed from the highest index down, each seeing the list as
mutated so far; newly spawned bullets are collected in push order. -/
def enemyLoopAux (env : Env) (delta : ℚ) (playerPos : Vec3)
    (obstacles : List Obstacle) (now : ℚ) (fireEnabled : Bool) :
    ℕ → List EnemyShip → ℕ → List EnemyShip × List Bullet × ℕ
  | 0, es, k => (es, [], k)
  | n + 1, es, k =>
    match es.get? n with
    | none => (es, [], k)
    | some e =>
      let r := entityTick env k es e delta playerPos obstacles now fireEnabled
      let es1 := es.set n r.1
      let rest := enemyLoopAux env delta playerPos obstacles now fireEnabled n es1 r.2.2
      (rest.1, r.2.1 ++ rest.2.1, rest.2.2)

/-- Embedding of `updateBullets`: advance by velocity×delta, decrement lifetime, drop
projectiles whose lifetime reaches 0 (the reverse-index splice keeps exactly
those with positive remaining life). -/
def updateBullets (delta : ℚ) (bs : List Bullet) : List Bullet :=
  (bs.map (fun b =>
    { b with position := b.position.add (b.velocity.smul delta), life := b.life - delta })).filter
    (fun b => decide (0 < b.life))

/-- Embedding of `handleEnemyHitsPlayer`: remove every enemy bullet within
`collisionRadius + 2` of the player and count the `onPlayerHit` callbacks.
The source compares `distanceTo ≤ hitRadius`; for the nonnegative radii in
play this is equivalent to the squared comparison used here. -/
def handleEnemyHitsPlayer (playerPos : Vec3) (playerRadius : ℚ) (bs : List Bullet) :
    List Bullet × ℕ :=
  let hitRadius := playerRadius + 2.0
  bs.foldr (fun b acc =>
    if (b.position.sub playerPos).normSq ≤ hitRadius * hitRadius then (acc.1, acc.2 + 1)
    else (b :: acc.1, acc.2)) ([], 0)

/-- Result of one squadron tick: the new squadron, the surviving player
bullets, the number of `onPlayerHit` calls, the `onEnemyDestroyed` tags in
call order, the projectiles spawned this tick, and the random-stream
counter. -/
structure TickResult where
  squadron : Squadron
  playerBullets : List Bullet
  playerHits : ℕ
  destroyedEvents : List EnemyType
  spawned : List Bullet
  randCounter : ℕ

/-- Embedding of `EnemySquadron.update`: bail out when inactive, run the per-entity loop
(movement/orientation/fire), then advance projectiles, resolve enemy-bullet
hits on the player and player-bullet hits on enemies, in that order. -/
def Squadron.update (env : Env) (k : ℕ) (sq : Squadron) (delta : ℚ)
    (playerPos : Vec3) (playerRadius : ℚ) (playerBullets : List Bullet)
    (obstacles : List Obstacle) (now : ℚ) : TickResult :=
  if sq.active = false then
    { squadron := sq, playerBullets := playerBullets, playerHits := 0,
      destroyedEvents := [], spawned := [], randCounter := k }
  else
    let r1 := enemyLoopAux env delta playerPos obstacles now sq.fireEnabled
      sq.enemies.length sq.enemies k
    let bs1 := updateBullets delta (sq.bullets ++ r1.2.1)
    let r2 := handleEnemyHitsPlayer playerPos playerRadius bs1
    let r3 := handlePlayerHitsEnemies sq.hitboxMultiplier r1.1 playerBullets
    { squadron := { sq with enemies := r3.1, bullets := r2.1 },
      playerBullets := r3.2.1, playerHits := r2.2, destroyedEvents := r3.2.2,
      spawned := r1.2.1, randCounter := r1.2.2 }

/-- Per-tick inputs the squadron consumes from its collaborators. -/
structure TickIn where
  delta : ℚ
  playerPos : Vec3
  playerRadius : ℚ
  playerBullets : List Bullet
  obstacles : List Obstacle
  now : ℚ

/-- Run a sequence of squadron ticks, collecting every projectile spawned. -/
def runTicks (env : Env) : Squadron → ℕ → List TickIn → Squadron × List Bullet
  | sq, _, [] => (sq, [])
  | sq, k, t :: rest =>
    let r := Squadron.update env k sq t.delta t.playerPos t.playerRadius
      t.playerBullets t.obstacles t.now
    let r2 := runTicks env r.squadron r.randCounter rest
    (r2.1, r.spawned ++ r2.2)

/-- Embedding of `buildSpawnList(fighters, interceptors)`. -/
def buildSpawnList (fighters interceptors : ℕ) : List EnemyType :=
  List.replicate fighters EnemyType.fighter ++
    List.replicate interceptors EnemyType.interceptor

/-- The `formationOffsets` table of `init`. -/
def formationOffsets : List Vec3 :=
  [⟨0, 0, 0⟩, ⟨14, 2, -12⟩, ⟨-14, 2, -12⟩, ⟨22, 0, -22⟩, ⟨-22, 0, -22⟩]

/-- One iteration of the spawn loop in `init`: build the `EnemyShip` record
for slot `i` of `total`. A fresh root has the identity rotation; `rootIdBase
+ i` models the fresh root object's identity; the prefab bounding radius is
60% of the largest scaled model dimension; draw accounting per entity: orbit
radius, radius offset, wander phase, wander speed, last-shot backdate and
initial fire delay. -/
def spawnEntity (env : Env) (k : ℕ) (playerPos origin : Vec3) (i total : ℕ)
    (t : EnemyType) (initNow : ℚ) (rootIdBase : ℕ) : EnemyShip × ℕ :=
  let archetype := archetypeOf t
  let size := env.prefabSize t
  let baseRadius := max size.x (max size.y size.z) * 0.6
  let angle := ((i : ℚ) / max 1 (total : ℚ)) * env.pi * 2
  let radius := 130 + env.rand k * 50
  let fOffset := (formationOffsets.get? (i % formationOffsets.length)).getD ⟨0, 0, 0⟩
  let targetPos := ((playerPos.add ((env.orbitUnit angle).smul radius)).add fOffset)
  let startPos := origin.add fOffset
  ({ type := t, archetype := archetype, rootId := rootIdBase + i,
     position := startPos,
     orient := fun v => v,
     velocity := Vec3.zero,
     orbitAngle := angle,
     radiusOffset := randFloatSpread (env.rand (k + 1)) 24,
     wanderPhase := env.rand (k + 2) * env.pi * 2,
     wanderSpeed := randFloat (env.rand (k + 3)) archetype.wanderSpeedRange.1
       archetype.wanderSpeedRange.2,
     formationOffset := fOffset,
     approachProgress := 0,
     approachStart := startPos,
     approachTarget := targetPos,
     health := archetype.health,
     lastShot := initNow - env.rand (k + 4) * 600,
     fireDelay := randFloat (env.rand (k + 5)) archetype.fireDelayRange.1
       archetype.fireDelayRange.2,
     boundingRadius := baseRadius,
     hitFlashTimer := 0 }, k + 6)

/-- The `for (i = 0; i < total; ...)` spawn loop of `init`. -/
def spawnLoop (env : Env) (playerPos origin : Vec3) (total : ℕ) (initNow : ℚ)
    (rootIdBase : ℕ) : List EnemyType → ℕ → ℕ → List EnemyShip × ℕ
  | [], _, k => ([], k)
  | t :: rest, i, k =>
    let r := spawnEntity env k playerPos origin i total t initNow rootIdBase
    let r2 := spawnLoop env playerPos origin total initNow rootIdBase rest (i + 1) r.2
    (r.1 :: r2.1, r2.2)

/-- Embedding of `init(count, player, formationOrigin?, interceptors)`: prefab loading is
awaited externally; the spawn origin sits `speedTarget(Fighter) ×
approachDuration` away from the player (toward the formation origin when one
is given, else straight down +z); the spawned entities are appended to the
current list. -/
def squadronInit (env : Env) (k : ℕ) (sq : Squadron) (count : ℕ)
    (playerPos : Vec3) (formationOrigin : Option Vec3) (initNow : ℚ)
    (interceptors rootIdBase : ℕ) : Squadron × ℕ :=
  let spawnTypes := buildSpawnList count interceptors
  let total := spawnTypes.length
  let spawnDistance := fighterArchetype.speedTarget * approachDuration
  let origin := match formationOrigin with
    | some fo => playerPos.add ((env.normalize (playerPos.sub fo)).smul spawnDistance)
    | none => playerPos.add ⟨0, 0, spawnDistance⟩
  let r := spawnLoop env playerPos origin total initNow rootIdBase spawnTypes 0 k
  ({ sq with enemies := sq.enemies ++ r.1 }, r.2)

/-- Embedding of `reset`: tear down every entity and enemy bullet, drop the active flag,
then `init` with the requested composition. -/
def squadronReset (env : Env) (k : ℕ) (sq : Squadron) (count : ℕ)
    (playerPos : Vec3) (formationOrigin : Option Vec3) (initNow : ℚ)
    (interceptors rootIdBase : ℕ) : Squadron × ℕ :=
  squadronInit env k { sq with enemies := [], bullets := [], active := false }
    count playerPos formationOrigin initNow interceptors rootIdBase

/-- Embedding of `debugExplodeOne`: `null` on an empty squadron, else destroy the first
entity (explosion effect external) and return its archetype tag. -/
def debugExplodeOne (sq : Squadron) : Option EnemyType × Squadron :=
  match sq.enemies with
  | [] => (none, sq)
  | e :: rest => (some e.type, { sq with enemies := rest })

/-- The `findIndex`-plus-`splice` core of `destroyEnemyByRoot`: remove the
first entity whose root matches, returning its tag. -/
def destroyByRootAux : List EnemyShip → ℕ → Option EnemyType × List EnemyShip
  | [], _ => (none, [])
  | e :: rest, root =>
    if e.rootId = root then (some e.type, rest)
    else
      let r := destroyByRootAux rest root
      (r.1, e :: r.2)

/-- Embedding of `destroyEnemyByRoot(root)`: `null` and no state change when no entity
matches, else destroy the matching entity and return its tag. -/
def destroyEnemyByRoot (sq : Squadron) (root : ℕ) : Option EnemyType × Squadron :=
  let r := destroyByRootAux sq.enemies root
  match r.1 with
  | none => (none, sq)
  | some t => (some t, { sq with enemies := r.2 })

/-- The ambient module state of main.ts that the wave orchestrator reads and
writes: the squadron, the wave counter, the `winPending`/`gameStarted`
flags, the player's health and destroyed flag, the pending
next-wave timer (delay in ms plus the scheduled fighter/interceptor
composition) and the result modal (`some true` = defeat, `some false` =
victory). -/
structure GameState where
  squadron : Squadron
  wave : ℕ
  winPending : Bool
  gameStarted : Bool
  playerHealth : ℚ
  playerMaxHealth : ℚ
  playerDestroyed : Bool
  winTimer : Option (ℚ × ℕ × ℕ)
  result : Option Bool

/-- Embedding of `showResult(text, isLoss)`: show the modal and disable the squadron. -/
def showResult (g : GameState) (isLoss : Bool) : GameState :=
  { g with result := some isLoss,
           squadron := { g.squadron with active := false, fireEnabled := false } }

/-- Embedding of `handlePlayerDestroyed`: destroy the player if still alive (zeroing its
health), trigger the explosion (external), force fire-control off, stop the
game, cancel the pending wave timer and show the defeat result. -/
def handlePlayerDestroyed (g : GameState) : GameState :=
  let g1 := if g.playerDestroyed then g
    else { g with playerDestroyed := true, playerHealth := 0 }
  showResult { g1 with squadron := { g1.squadron with fireEnabled := false },
                       gameStarted := false, winTimer := none } true

/-- Embedding of `handleVictory`. -/
def handleVictory (g : GameState) : GameState :=
  showResult { g with winPending := false, winTimer := none } false

/-- Embedding of `scheduleNextWave(fighters, interceptors)`: cancel any pending timer and
arm a 10000 ms timer that will heal the player and respawn the squadron with
the given composition. -/
def scheduleNextWave (g : GameState) (fighters interceptors : ℕ) : GameState :=
  { g with winTimer := some (10000, fighters, interceptors) }

/-- The timer callback armed by `scheduleNextWave` (modelled as an explicit
step: the delay elapses and the stored callback runs): fully heal the
player, reset the squadron to the scheduled composition, then re-activate it
and re-enable fire. A state without a pending timer is unchanged. -/
def fireWinTimer (env : Env) (k : ℕ) (g : GameState) (playerPos : Vec3)
    (formationOrigin : Option Vec3) (initNow : ℚ) (rootIdBase : ℕ) : GameState :=
  match g.winTimer with
  | none => g
  | some s =>
    let sq := (squadronReset env k g.squadron s.2.1 playerPos formationOrigin initNow
      s.2.2 rootIdBase).1
    { g with playerHealth := g.playerMaxHealth,
             squadron := { sq with active := true, fireEnabled := true },
             winTimer := none }

/-- Embedding of `advanceWave`: the fixed wave table — wave 1 clear schedules 2 fighters,
wave 2 clear 3 fighters, wave 3 clear 2 fighters + 1 interceptor, wave 4
clear 3 + 1, wave 5 clear 3 + 2, and clearing the final scripted wave
enters victory. -/
def advanceWave (g : GameState) : GameState :=
  if g.wave = 1 then scheduleNextWave { g with wave := 2 } 2 0
  else if g.wave = 2 then scheduleNextWave { g with wave := 3 } 3 0
  else if g.wave = 3 then scheduleNextWave { g with wave := 4 } 2 1
  else if g.wave = 4 then scheduleNextWave { g with wave := 5 } 3 1
  else if g.wave = 5 then scheduleNextWave { g with wave := 6 } 3 2
  else handleVictory g

/-- Embedding of `onEnemyDestroyed(type)`: after the UI bookkeeping, advance the wave when
the squadron is empty, no win is pending and the player is alive. -/
def onEnemyDestroyed (g : GameState) (_t : EnemyType) : GameState :=
  if g.squadron.getCount = 0 ∧ g.winPending = false ∧ g.playerDestroyed = false
  then advanceWave g else g

/-- Observable steps of one `EnemySquadron.update` call, for the ordering
claims: per-entity steering, orientation and fire-control, then projectile
advancement and the two collision-resolution passes. -/
inductive TickEvent where
  | steer : ℕ → TickEvent
  | orientStep : ℕ → TickEvent
  | fire : ℕ → TickEvent
  | advanceBullets : TickEvent
  | enemyBulletsVsPlayer : TickEvent
  | playerBulletsVsEnemies : TickEvent
deriving DecidableEq

/-- Event trace of the per-entity loop of `update` over `n` entities: the
loop runs the index from `n-1` down to `0`, and for each entity performs its
steering, then its orientation, then its fire decision, before moving to the
next entity. -/
def enemyLoopTrace : ℕ → List TickEvent
  | 0 => []
  | n + 1 =>
    TickEvent.steer n :: TickEvent.orientStep n :: TickEvent.fire n :: enemyLoopTrace n

/-- Event trace of one full `update` call: nothing when inactive, else the
per-entity loop followed by `updateBullets`, `handleEnemyHitsPlayer` and
`handlePlayerHitsEnemies`. -/
def updateTrace (active : Bool) (n : ℕ) : List TickEvent :=
  if active then
    enemyLoopTrace n ++
      [TickEvent.advanceBullets, TickEvent.enemyBulletsVsPlayer,
        TickEvent.playerBulletsVsEnemies]
  else []

/-- Index of the first occurrence of an event in a trace (the trace length
when absent): the "happens at" position used to state ordering. -/
def evPos : List TickEvent → TickEvent → ℕ
  | [], _ => 0
  | a :: l, t => if a = t then 0 else evPos l t + 1

/-- Iterate `updateMovement` over a list of tick deltas (player position,
obstacle snapshot and neighbour list held fixed; they do not influence the
approach-progress bookkeeping). -/
def movementIter (env : Env) (k : ℕ) (all : List EnemyShip) (playerPos : Vec3)
    (obstacles : List Obstacle) : EnemyShip → List ℚ → EnemyShip
  | e, [] => e
  | e, d :: rest =>
    movementIter env k all playerPos obstacles
      (updateMovement env k all e d playerPos obstacles).1 rest

/-- A benign concrete environment for evaluating witnesses: the transcendental
oracles are instantiated at values they really take somewhere (a unit vector
for the orbit direction, the zero wander vector, identity-fixed slerp). -/
def env0 : Env where
  rand := fun _ => 0
  randomDirection := fun _ => ⟨1, 0, 0⟩
  orbitUnit := fun _ => ⟨1, 0, 0⟩
  wanderVec := fun _ => Vec3.zero
  length := fun _ => 1
  slerpOrient := fun o _ => o
  pi := 3.14159265358979
  prefabSize := fun _ => ⟨10, 10, 10⟩

/-- A concrete enemy used to evaluate witnesses: a freshly arrived fighter at
the player's position offset, identity orientation, full health. -/
def sampleEnemy : EnemyShip where
  type := EnemyType.fighter
  archetype := fighterArchetype
  rootId := 0
  position := ⟨0, 0, 0⟩
  orient := fun v => v
  velocity := Vec3.zero
  orbitAngle := 0
  radiusOffset := 0
  wanderPhase := 0
  wanderSpeed := 1
  formationOffset := ⟨0, 0, 0⟩
  approachProgress := 0
  approachStart := ⟨0, 0, 510⟩
  approachTarget := ⟨0, 0, 0⟩
  health := 3
  lastShot := 0
  fireDelay := 800
  boundingRadius := 6
  hitFlashTimer := 0

/-- A player bullet sitting exactly on `sampleEnemy`'s position. -/
def sampleBullet : Bullet := ⟨⟨0, 0, 0⟩, ⟨0, 0, 0⟩, 1⟩

/-- Environment for the approach-completion counterexample: the length
oracle is exact on the one vector whose length the tick takes
(`⟨-100,0,0⟩`), the orbit direction is queried at angle 0 where it is
exactly `⟨1,0,0⟩`, and the slerp oracle is queried at a fixed point (the
entity already faces the look direction, so the slerp returns the same
orientation). -/
def env3 : Env where
  rand := fun _ => 0.5
  randomDirection := fun _ => ⟨0, 0, 1⟩
  orbitUnit := fun _ => ⟨1, 0, 0⟩
  wanderVec := fun _ => Vec3.zero
  length := fun v => if v = ⟨-100, 0, 0⟩ then 100 else 1
  slerpOrient := fun o _ => o
  pi := 3.14159265358979
  prefabSize := fun _ => ⟨10, 10, 10⟩

/-- The entity of the approach-completion counterexample: approach progress
$9/10$, cooldown long expired, oriented (by the rotation $(x,y,z) \mapsto
(z,y,-x)$, i.e. facing $(-1,0,0)$) toward the player, one movement tick of
$0.3$ s away from completing its approach. -/
def approachEnemy : EnemyShip where
  type := EnemyType.fighter
  archetype := fighterArchetype
  rootId := 0
  position := ⟨100, 0, 150⟩
  orient := fun v => ⟨v.z, v.y, -(v.x)⟩
  velocity := Vec3.zero
  orbitAngle := -(33 / 200)
  radiusOffset := -10
  wanderPhase := 0
  wanderSpeed := 1
  formationOffset := ⟨0, 0, 0⟩
  approachProgress := 9 / 10
  approachStart := ⟨100, 0, 500⟩
  approachTarget := ⟨100, 0, 0⟩
  health := 3
  lastShot := 0
  fireDelay := 800
  boundingRadius := 6
  hitFlashTimer := 0

/-- Environment for the fire-control witness: the length oracle is exact on
the aim vector `⟨0,0,-5⟩` the witness uses. -/
def env2 : Env where
  rand := fun _ => 0.25
  randomDirection := fun _ => ⟨0, 0, 1⟩
  orbitUnit := fun _ => ⟨1, 0, 0⟩
  wanderVec := fun _ => Vec3.zero
  length := fun v => if v = ⟨0, 0, -5⟩ then 5 else 1
  slerpOrient := fun o _ => o
  pi := 3.14159265358979
  prefabSize := fun _ => ⟨10, 10, 10⟩

/-- The entity of the fire-control witness: in position (approach done),
cooldown expired, identity orientation 5 units behind the player along +z,
hence facing it exactly. -/
def shooterEnemy : EnemyShip where
  type := EnemyType.fighter
  archetype := fighterArchetype
  rootId := 0
  position := ⟨0, 0, 5⟩
  orient := fun v => v
  velocity := Vec3.zero
  orbitAngle := 0
  radiusOffset := 0
  wanderPhase := 0
  wanderSpeed := 1
  formationOffset := ⟨0, 0, 0⟩
  approachProgress := 1
  approachStart := ⟨0, 0, 510⟩
  approachTarget := ⟨0, 0, 5⟩
  health := 3
  lastShot := 0
  fireDelay := 800
  boundingRadius := 6
  hitFlashTimer := 0

/-- A wide enemy for the hitbox-margin witness: bounding radius 10 at the
origin. -/
def wideEnemy : EnemyShip :=
  { sampleEnemy with boundingRadius := 10 }

/-- A bullet at squared distance 200 from `wideEnemy`: inside the mobile
hit radius (16² = 256) but outside the desktop one (13² = 169). -/
def marginBullet : Bullet := ⟨⟨10, 10, 0⟩, ⟨0, 0, 0⟩, 1⟩

/-- A one-fighter squadron whose entity has root id 7, for the
destroy-by-reference witnesses. -/
def sampleSquadron : Squadron where
  enemies := [{ sampleEnemy with rootId := 7 }]
  bullets := []
  fireEnabled := true
  active := true
  hitboxMultiplier := 0.3

/-- A game state sitting in wave 1 with the squadron just emptied and the
player alive but damaged, for the wave-progression witness. -/
def waveOneState : GameState where
  squadron := mkSquadron false
  wave := 1
  winPending := false
  gameStarted := true
  playerHealth := 40
  playerMaxHealth := 100
  playerDestroyed := false
  winTimer := none
  result := none

/-! ### General lemmas about the damage-resolution scan -/

theorem scanRev_eq_none_iff (m : ℚ) (e : EnemyShip) (bs : List Bullet) :
    scanRev m e bs = none ↔ ∀ b ∈ bs, hitTest m e b = false := by
  induction bs with
  | nil => simp [scanRev]
  | cons b rest ih =>
    cases h : scanRev m e rest with
    | some r =>
      simp only [scanRev, h]
      constructor
      · intro hc; exact absurd hc (by simp)
      · intro hall
        have : scanRev m e rest = none := ih.mpr ?_
        · rw [this] at h; exact absurd h (by simp)
        · intro b' hb'; exact hall b' (List.mem_cons_of_mem _ hb')
    | none =>
      simp only [scanRev, h]
      have hrest : ∀ b' ∈ rest, hitTest m e b' = false := ih.mp h
      constructor
      · intro hc b' hb'
        rcases List.mem_cons.mp hb' with rfl | hmem
        · by_contra hb
          have : hitTest m e b' = true := by
            cases hx : hitTest m e b' with
            | true => rfl
            | false => exact absurd hx hb
          rw [this] at hc
          exact absurd hc (by simp)
        · exact hrest b' hmem
      · intro hall
        have : hitTest m e b = false := hall b (List.mem_cons_self b rest)
        simp [this]

theorem scanRev_length (m : ℚ) (e : EnemyShip) :
    ∀ bs bs' : List Bullet, scanRev m e bs = some bs' → bs.length = bs'.length + 1 := by
  intro bs
  induction bs with
  | nil => intro bs' h; simp [scanRev] at h
  | cons b rest ih =>
    intro bs' h
    cases hr : scanRev m e rest with
    | some r =>
      simp only [scanRev, hr] at h
      cases h
      have := ih r hr
      simp [List.length_cons, this]
    | none =>
      simp only [scanRev, hr] at h
      by_cases hb : hitTest m e b = true
      · simp [hb] at h; cases h; simp
      · simp [hb] at h

theorem scanRev_exists_hit (m : ℚ) (e : EnemyShip) :
    ∀ bs bs' : List Bullet, scanRev m e bs = some bs' →
      ∃ b ∈ bs, hitTest m e b = true := by
  intro bs
  induction bs with
  | nil => intro bs' h; simp [scanRev] at h
  | cons b rest ih =>
    intro bs' h
    cases hr : scanRev m e rest with
    | some r =>
      rcases ih r hr with ⟨b', hb', hhit⟩
      exact ⟨b', List.mem_cons_of_mem _ hb', hhit⟩
    | none =>
      simp only [scanRev, hr] at h
      by_cases hb : hitTest m e b = true
      · exact ⟨b, List.mem_cons_self b rest, hb⟩
      · simp [hb] at h

theorem scanRev_isSome_of_hit (m : ℚ) (e : EnemyShip) (bs : List Bullet)
    (h : ∃ b ∈ bs, hitTest m e b = true) : ∃ bs', scanRev m e bs = some bs' := by
  cases hs : scanRev m e bs with
  | some r => exact ⟨r, rfl⟩
  | none =>
    rcases h with ⟨b, hb, hhit⟩
    have := (scanRev_eq_none_iff m e bs).mp hs b hb
    rw [hhit] at this
    exact absurd this (by simp)

/-- Damaging an enemy (health decrement, hit-flash refresh) does not change
the geometry the hit test reads. -/
theorem hitTest_damaged (m : ℚ) (e : EnemyShip) (h : Int) (t : ℚ) (b : Bullet) :
    hitTest m { e with health := h, hitFlashTimer := t } b = hitTest m e b := rfl

/-- Embedding of `handlePlayerHitsEnemies` on a one-entity squadron reduces to
`processEnemy`. -/
theorem handlePlayerHitsEnemies_single (m : ℚ) (e : EnemyShip) (bs : List Bullet) :
    handlePlayerHitsEnemies m [e] bs =
      match processEnemy m e bs with
      | (none, bs2, evs) => ([], bs2, evs)
      | (some e', bs2, evs) => ([e'], bs2, evs) := by
  simp only [handlePlayerHitsEnemies]
  cases h : processEnemy m e bs with
  | mk oe r =>
    cases oe <;> simp [h]

/-- A confirmed hit on an enemy that survives it: the bullet is consumed,
health drops by exactly one, the hit-flash timer is refreshed, no destroyed
event fires. -/
theorem processEnemy_hit_live (m : ℚ) (e : EnemyShip) (bs bs' : List Bullet)
    (h : scanRev m e bs = some bs') (hl : ¬ e.health - 1 ≤ 0) :
    processEnemy m e bs =
      (some { e with health := e.health - 1, hitFlashTimer := 0.4 }, bs', []) := by
  simp only [processEnemy, h]
  exact if_neg hl

/-- A confirmed hit that brings health to 0 (or below): the enemy is removed
and exactly one destroyed event with its archetype tag fires. -/
theorem processEnemy_hit_dead (m : ℚ) (e : EnemyShip) (bs bs' : List Bullet)
    (h : scanRev m e bs = some bs') (hd : e.health - 1 ≤ 0) :
    processEnemy m e bs = (none, bs', [e.type]) := by
  simp only [processEnemy, h]
  exact if_pos hd

/-- C1: per tick and per live adversary, at most one player projectile can
damage it (the inner loop breaks after the first in-range bullet): a tick
with no in-range bullet leaves the adversary and the bullet list unchanged;
a confirmed hit consumes exactly one in-range projectile and decrements
health by exactly 1; when health reaches 0 the adversary is removed and the
destroyed callback receives its archetype tag exactly once; and an adversary
spawned with health 3 is removed after exactly 3 confirmed hits with exactly
one callback. -/
theorem c1_hit_damage_resolution :
    (∀ (m : ℚ) (e : EnemyShip) (bs : List Bullet), scanRev m e bs = none →
        processEnemy m e bs = (some e, bs, [])) ∧
    (∀ (m : ℚ) (e : EnemyShip) (bs bs' : List Bullet), scanRev m e bs = some bs' →
        bs.length = bs'.length + 1 ∧ (∃ b ∈ bs, hitTest m e b = true) ∧
        (e.health - 1 ≤ 0 → processEnemy m e bs = (none, bs', [e.type])) ∧
        (¬ e.health - 1 ≤ 0 → processEnemy m e bs =
          (some { e with health := e.health - 1, hitFlashTimer := 0.4 }, bs', []))) ∧
    (∀ (m : ℚ) (e : EnemyShip) (bs1 bs2 bs3 : List Bullet), e.health = 3 →
        (∃ b ∈ bs1, hitTest m e b = true) → (∃ b ∈ bs2, hitTest m e b = true) →
        (∃ b ∈ bs3, hitTest m e b = true) →
        hitTicks m [bs1, bs2, bs3] [e] = ([], [e.type])) := by
  refine ⟨?_, ?_, ?_⟩
  · intro m e bs h
    simp [processEnemy, h]
  · intro m e bs bs' h
    exact ⟨scanRev_length m e bs bs' h, scanRev_exists_hit m e bs bs' h,
      fun hd => processEnemy_hit_dead m e bs bs' h hd,
      fun hl => processEnemy_hit_live m e bs bs' h hl⟩
  · intro m e bs1 bs2 bs3 hh h1 h2 h3
    obtain ⟨r1, hr1⟩ := scanRev_isSome_of_hit m e bs1 h1
    have hp1 : processEnemy m e bs1 =
        (some { e with health := e.health - 1, hitFlashTimer := 0.4 }, r1, []) :=
      processEnemy_hit_live m e bs1 r1 hr1 (by rw [hh]; norm_num)
    have h2' : ∃ b ∈ bs2,
        hitTest m { e with health := e.health - 1, hitFlashTimer := 0.4 } b = true := by
      simpa [hitTest_damaged] using h2
    obtain ⟨r2, hr2⟩ := scanRev_isSome_of_hit m
      { e with health := e.health - 1, hitFlashTimer := 0.4 } bs2 h2'
    have hp2 : processEnemy m { e with health := e.health - 1, hitFlashTimer := 0.4 } bs2 =
        (some { e with health := e.health - 1 - 1, hitFlashTimer := 0.4 }, r2, []) :=
      processEnemy_hit_live m _ bs2 r2 hr2 (by simp only []; rw [hh]; norm_num)
    have h3' : ∃ b ∈ bs3,
        hitTest m { e with health := e.health - 1 - 1, hitFlashTimer := 0.4 } b = true := by
      simpa [hitTest_damaged] using h3
    obtain ⟨r3, hr3⟩ := scanRev_isSome_of_hit m
      { e with health := e.health - 1 - 1, hitFlashTimer := 0.4 } bs3 h3'
    have hp3 : processEnemy m { e with health := e.health - 1 - 1, hitFlashTimer := 0.4 } bs3 =
        (none, r3, [e.type]) :=
      processEnemy_hit_dead m _ bs3 r3 hr3 (by simp only []; rw [hh]; norm_num)
    simp only [hitTicks, handlePlayerHitsEnemies_single, hp1, hp2, hp3]
    simp

/-- C1 witness: a health-3 fighter with a player bullet on top of it in each
of three damage ticks is removed with exactly one destroyed event. -/
theorem c1_hit_damage_resolution_witness :
    hitTicks (3 / 10) [[sampleBullet], [sampleBullet], [sampleBullet]] [sampleEnemy] =
      ([], [EnemyType.fighter]) :=
  c1_hit_damage_resolution.2.2 (3 / 10) sampleEnemy [sampleBullet] [sampleBullet]
    [sampleBullet] rfl
    ⟨sampleBullet, by simp, by
      simp only [hitTest, sampleEnemy, sampleBullet, Vec3.sub, Vec3.normSq, Vec3.dot,
        decide_eq_true_eq]
      norm_num⟩
    ⟨sampleBullet, by simp, by
      simp only [hitTest, sampleEnemy, sampleBullet, Vec3.sub, Vec3.normSq, Vec3.dot,
        decide_eq_true_eq]
      norm_num⟩
    ⟨sampleBullet, by simp, by
      simp only [hitTest, sampleEnemy, sampleBullet, Vec3.sub, Vec3.normSq, Vec3.dot,
        decide_eq_true_eq]
      norm_num⟩

/-! ### Field bookkeeping of the per-entity tick -/

theorem updateMovement_approach_velocity (env : Env) (k : ℕ) (all : List EnemyShip)
    (e : EnemyShip) (delta : ℚ) (p : Vec3) (obs : List Obstacle)
    (h : e.approachProgress < 1) :
    (updateMovement env k all e delta p obs).1.velocity = Vec3.zero := by
  simp [updateMovement, h]

theorem updateMovement_progress (env : Env) (k : ℕ) (all : List EnemyShip)
    (e : EnemyShip) (delta : ℚ) (p : Vec3) (obs : List Obstacle) :
    (updateMovement env k all e delta p obs).1.approachProgress =
      if e.approachProgress < 1 then min 1 (e.approachProgress + delta / approachDuration)
      else e.approachProgress := by
  by_cases h : e.approachProgress < 1 <;> simp [updateMovement, h]

theorem updateOrientation_velocity (env : Env) (e : EnemyShip) (p : Vec3) :
    (updateOrientation env e p).velocity = e.velocity := rfl

theorem updateOrientation_progress (env : Env) (e : EnemyShip) (p : Vec3) :
    (updateOrientation env e p).approachProgress = e.approachProgress := rfl

theorem updateHitFlash_velocity (e : EnemyShip) (delta : ℚ) :
    (updateHitFlash e delta).velocity = e.velocity := by
  unfold updateHitFlash
  split <;> rfl

theorem updateHitFlash_progress (e : EnemyShip) (delta : ℚ) :
    (updateHitFlash e delta).approachProgress = e.approachProgress := by
  unfold updateHitFlash
  split <;> rfl

theorem tryShoot_velocity (env : Env) (k : ℕ) (fe : Bool) (e : EnemyShip)
    (p : Vec3) (now : ℚ) :
    (tryShoot env k fe e p now).1.velocity = e.velocity := by
  unfold tryShoot
  split
  · rfl
  split
  · rfl
  split
  · rfl
  dsimp only
  split <;> rfl

theorem tryShoot_noShot_of_progress (env : Env) (k : ℕ) (fe : Bool) (e : EnemyShip)
    (p : Vec3) (now : ℚ) (h : e.approachProgress < 1) :
    tryShoot env k fe e p now = (e, [], k) := by
  simp only [tryShoot, if_pos h]
  split <;> rfl

/-- C3 (amended): a tick that starts with approach progress < 1 always
leaves the entity's velocity exactly zero (position comes from the
interpolation branch, not velocity integration); it also emits no
projectile, provided the tick does not complete the approach
(progress + delta/approachDuration still < 1). On the approach-completing
tick the velocity is still zeroed, but fire control already sees progress
= 1 and may fire (see the counterexample). -/
theorem c3_approach_phase (env : Env) (k : ℕ) (all : List EnemyShip) (e : EnemyShip)
    (delta : ℚ) (p : Vec3) (obs : List Obstacle) (now : ℚ) (fe : Bool)
    (h : e.approachProgress < 1) :
    (entityTick env k all e delta p obs now fe).1.velocity = Vec3.zero ∧
    (e.approachProgress + delta / approachDuration < 1 →
      (entityTick env k all e delta p obs now fe).2.1 = []) := by
  constructor
  · unfold entityTick
    rw [tryShoot_velocity, updateHitFlash_velocity, updateOrientation_velocity,
      updateMovement_approach_velocity env k all e delta p obs h]
  · intro hlt
    unfold entityTick
    have hp : (updateHitFlash (updateOrientation env
        (updateMovement env k all e delta p obs).1 p) delta).approachProgress < 1 := by
      rw [updateHitFlash_progress, updateOrientation_progress, updateMovement_progress,
        if_pos h]
      exact lt_of_le_of_lt (min_le_right _ _) hlt
    rw [tryShoot_noShot_of_progress _ _ _ _ _ _ hp]

/-- C3 counterexample: the claim as stated is false on the
approach-completing tick. `approachEnemy` starts the tick with approach
progress 9/10 < 1; one `entityTick` of 0.3 s (movement, orientation, fire
control in source order) completes the approach and then fires, emitting
one projectile per muzzle (2 for a fighter) in the very tick that began
with progress < 1. -/
theorem c3_counterexample :
    approachEnemy.approachProgress < 1 ∧
    ((entityTick env3 0 [approachEnemy] approachEnemy (3 / 10) ⟨0, 0, 0⟩ [] 1000
      true).2.1).length = 2 := by
  constructor
  · norm_num [approachEnemy]
  · norm_num [entityTick, updateMovement, updateOrientation, updateHitFlash, tryShoot,
      spawnLaser, spawnLaserGo, spawnOne, approachEnemy, env3, Env.normalize,
      Vec3.sub, Vec3.add, Vec3.smul, Vec3.divScalar, Vec3.dot, Vec3.normSq, Vec3.zero,
      lerpVectors, smootherstep, approachDuration, randFloat, randFloatSpread,
      fighterArchetype, archetypeOf, clampLength]

/-- C3 witness: a freshly spawned fighter (progress 0) ticked for 1 s of a
3 s approach keeps zero velocity and emits nothing. -/
theorem c3_approach_phase_witness :
    (entityTick env0 0 [sampleEnemy] sampleEnemy 1 ⟨0, 0, 0⟩ [] 0 true).1.velocity =
      Vec3.zero ∧
    (entityTick env0 0 [sampleEnemy] sampleEnemy 1 ⟨0, 0, 0⟩ [] 0 true).2.1 = [] := by
  have h := c3_approach_phase env0 0 [sampleEnemy] sampleEnemy 1 ⟨0, 0, 0⟩ [] 0 true
    (by norm_num [sampleEnemy])
  exact ⟨h.1, h.2 (by norm_num [sampleEnemy, approachDuration])⟩

/-! ### Approach-progress arithmetic -/

theorem min_one_add_absorb (a s : ℚ) (hs : 0 ≤ s) :
    min 1 (min 1 a + s) = min 1 (a + s) := by
  rcases le_or_lt 1 a with h | h
  · rw [min_eq_left h, min_eq_left (by linarith), min_eq_left (by linarith)]
  · rw [min_eq_right (le_of_lt h)]

theorem movementIter_progress_general (env : Env) (k : ℕ) (all : List EnemyShip)
    (p : Vec3) (obs : List Obstacle) :
    ∀ (ds : List ℚ) (e : EnemyShip), e.approachProgress ≤ 1 → (∀ d ∈ ds, 0 ≤ d) →
      (movementIter env k all p obs e ds).approachProgress =
        min 1 (e.approachProgress + ds.sum / approachDuration) := by
  intro ds
  induction ds with
  | nil =>
    intro e he _
    simp [movementIter, min_eq_right he]
  | cons d rest ih =>
    intro e he hd
    have hd0 : 0 ≤ d := hd d (List.mem_cons_self d rest)
    have hrest : ∀ x ∈ rest, 0 ≤ x := fun x hx => hd x (List.mem_cons_of_mem _ hx)
    have hsum : 0 ≤ rest.sum := List.sum_nonneg hrest
    have hsum3 : 0 ≤ rest.sum / approachDuration := by
      apply div_nonneg hsum
      norm_num [approachDuration]
    have hstep := updateMovement_progress env k all e d p obs
    by_cases hlt : e.approachProgress < 1
    · rw [if_pos hlt] at hstep
      have hle : (updateMovement env k all e d p obs).1.approachProgress ≤ 1 := by
        rw [hstep]; exact min_le_left _ _
      calc (movementIter env k all p obs e (d :: rest)).approachProgress
          = min 1 ((updateMovement env k all e d p obs).1.approachProgress +
              rest.sum / approachDuration) := ih _ hle hrest
        _ = min 1 (min 1 (e.approachProgress + d / approachDuration) +
              rest.sum / approachDuration) := by rw [hstep]
        _ = min 1 (e.approachProgress + d / approachDuration +
              rest.sum / approachDuration) := min_one_add_absorb _ _ hsum3
        _ = min 1 (e.approachProgress + (d :: rest).sum / approachDuration) := by
              rw [List.sum_cons, add_div, add_assoc]
    · rw [if_neg hlt] at hstep
      have he1 : e.approachProgress = 1 := le_antisymm he (not_lt.mp hlt)
      have hle : (updateMovement env k all e d p obs).1.approachProgress ≤ 1 := by
        rw [hstep, he1]
      calc (movementIter env k all p obs e (d :: rest)).approachProgress
          = min 1 ((updateMovement env k all e d p obs).1.approachProgress +
              rest.sum / approachDuration) := ih _ hle hrest
        _ = 1 := by rw [hstep, he1, min_eq_left (by linarith)]
        _ = min 1 (e.approachProgress + (d :: rest).sum / approachDuration) := by
              rw [he1, List.sum_cons, add_div]
              have : 0 ≤ d / approachDuration := by
                apply div_nonneg hd0
                norm_num [approachDuration]
              rw [min_eq_left (by linarith)]

/-- C7: approach progress advances by `delta / approachDuration` per tick,
clamped at 1, so after any sequence of (nonnegative-delta) movement ticks of
a freshly spawned entity it equals `min 1 (Σ deltas / approachDuration)`;
with the 3-second approach duration, any deltas summing to exactly 3 bring
progress to exactly 1, after which the approach-interpolation guard
(`approachProgress < 1`) is off for good: every subsequent movement tick
takes the autonomous-steering branch and keeps progress at 1. -/
theorem c7_approach_progress :
    (∀ (env : Env) (k : ℕ) (all : List EnemyShip) (p : Vec3) (obs : List Obstacle)
      (e : EnemyShip) (ds : List ℚ), e.approachProgress = 0 → (∀ d ∈ ds, 0 ≤ d) →
        (movementIter env k all p obs e ds).approachProgress =
          min 1 (ds.sum / approachDuration)) ∧
    (∀ (env : Env) (k : ℕ) (all : List EnemyShip) (p : Vec3) (obs : List Obstacle)
      (e : EnemyShip) (ds : List ℚ), e.approachProgress = 0 → (∀ d ∈ ds, 0 ≤ d) →
      ds.sum = 3 →
        (movementIter env k all p obs e ds).approachProgress = 1 ∧
        ¬ (movementIter env k all p obs e ds).approachProgress < 1 ∧
        ∀ d' : ℚ, (updateMovement env k all (movementIter env k all p obs e ds) d' p
          obs).1.approachProgress = 1) := by
  have main : ∀ (env : Env) (k : ℕ) (all : List EnemyShip) (p : Vec3)
      (obs : List Obstacle) (e : EnemyShip) (ds : List ℚ), e.approachProgress = 0 →
      (∀ d ∈ ds, 0 ≤ d) →
      (movementIter env k all p obs e ds).approachProgress =
        min 1 (ds.sum / approachDuration) := by
    intro env k all p obs e ds h0 hd
    rw [movementIter_progress_general env k all p obs ds e (by rw [h0]; norm_num) hd, h0,
      zero_add]
  refine ⟨main, ?_⟩
  intro env k all p obs e ds h0 hd hsum
  have h1 : (movementIter env k all p obs e ds).approachProgress = 1 := by
    rw [main env k all p obs e ds h0 hd, hsum]
    norm_num [approachDuration]
  refine ⟨h1, by rw [h1]; exact lt_irrefl 1, ?_⟩
  intro d'
  rw [updateMovement_progress, if_neg (by rw [h1]; exact lt_irrefl 1), h1]

/-- C7 witness: deltas 1, ½ and 1½ summing to the 3-second approach window
drive a fresh fighter's progress to exactly 1, and a further 2-second tick
stays in the autonomous branch at progress 1. -/
theorem c7_approach_progress_witness :
    (movementIter env0 0 [] ⟨0, 0, 0⟩ [] sampleEnemy [1, 1 / 2, 3 / 2]).approachProgress
        = 1 ∧
    (updateMovement env0 0 [] (movementIter env0 0 [] ⟨0, 0, 0⟩ [] sampleEnemy
      [1, 1 / 2, 3 / 2]) 2 ⟨0, 0, 0⟩ []).1.approachProgress = 1 := by
  have h := c7_approach_progress.2 env0 0 [] ⟨0, 0, 0⟩ [] sampleEnemy [1, 1 / 2, 3 / 2]
    (by norm_num [sampleEnemy]) (by intro d hd; fin_cases hd <;> norm_num)
    (by norm_num)
  exact ⟨h.1, h.2.2 2⟩

/-! ### Event positions in the tick trace -/

theorem evPos_cons_self (t : TickEvent) (l : List TickEvent) : evPos (t :: l) t = 0 := by
  simp [evPos]

theorem evPos_cons_ne (a t : TickEvent) (l : List TickEvent) (h : a ≠ t) :
    evPos (a :: l) t = evPos l t + 1 := by
  simp [evPos, h]

theorem evPos_append_left (t : TickEvent) :
    ∀ l1 l2 : List TickEvent, t ∈ l1 → evPos (l1 ++ l2) t = evPos l1 t := by
  intro l1
  induction l1 with
  | nil => intro l2 h; simp at h
  | cons a l ih =>
    intro l2 h
    by_cases ha : a = t
    · subst ha
      rw [List.cons_append, evPos_cons_self, evPos_cons_self]
    · rcases List.mem_cons.mp h with rfl | hmem
      · exact absurd rfl ha
      · rw [List.cons_append, evPos_cons_ne a t _ ha, evPos_cons_ne a t _ ha, ih l2 hmem]

theorem evPos_append_right (t : TickEvent) :
    ∀ l1 l2 : List TickEvent, t ∉ l1 →
      evPos (l1 ++ l2) t = l1.length + evPos l2 t := by
  intro l1
  induction l1 with
  | nil => intro l2 _; simp
  | cons a l ih =>
    intro l2 h
    have ha : a ≠ t := fun hc => h (hc ▸ List.mem_cons_self a l)
    have hmem : t ∉ l := fun hc => h (List.mem_cons_of_mem a hc)
    rw [List.cons_append, evPos_cons_ne a t _ ha, ih l2 hmem, List.length_cons]
    omega

theorem evPos_lt_length_of_mem (t : TickEvent) :
    ∀ l : List TickEvent, t ∈ l → evPos l t < l.length := by
  intro l
  induction l with
  | nil => intro h; simp at h
  | cons a l ih =>
    intro h
    by_cases ha : a = t
    · subst ha; rw [evPos_cons_self]; simp
    · rcases List.mem_cons.mp h with rfl | hmem
      · exact absurd rfl ha
      · rw [evPos_cons_ne a t _ ha, List.length_cons]
        exact Nat.succ_lt_succ (ih hmem)

theorem enemyLoopTrace_length : ∀ n, (enemyLoopTrace n).length = 3 * n := by
  intro n
  induction n with
  | zero => simp [enemyLoopTrace]
  | succ m ih => simp [enemyLoopTrace, ih]; ring

theorem steer_mem_enemyLoopTrace : ∀ n i, i < n → TickEvent.steer i ∈ enemyLoopTrace n := by
  intro n
  induction n with
  | zero => intro i h; exact absurd h (Nat.not_lt_zero i)
  | succ m ih =>
    intro i h
    rcases Nat.lt_succ_iff_lt_or_eq.mp h with h' | rfl
    · simp only [enemyLoopTrace]
      exact List.mem_cons_of_mem _ (List.mem_cons_of_mem _ (List.mem_cons_of_mem _ (ih i h')))
    · simp [enemyLoopTrace]

theorem fire_mem_enemyLoopTrace : ∀ n i, i < n → TickEvent.fire i ∈ enemyLoopTrace n := by
  intro n
  induction n with
  | zero => intro i h; exact absurd h (Nat.not_lt_zero i)
  | succ m ih =>
    intro i h
    rcases Nat.lt_succ_iff_lt_or_eq.mp h with h' | rfl
    · simp only [enemyLoopTrace]
      exact List.mem_cons_of_mem _ (List.mem_cons_of_mem _ (List.mem_cons_of_mem _ (ih i h')))
    · simp [enemyLoopTrace]

theorem advance_not_mem_enemyLoopTrace : ∀ n, TickEvent.advanceBullets ∉ enemyLoopTrace n := by
  intro n
  induction n with
  | zero => simp [enemyLoopTrace]
  | succ m ih => simp [enemyLoopTrace, ih]

theorem ebp_not_mem_enemyLoopTrace : ∀ n, TickEvent.enemyBulletsVsPlayer ∉ enemyLoopTrace n := by
  intro n
  induction n with
  | zero => simp [enemyLoopTrace]
  | succ m ih => simp [enemyLoopTrace, ih]

theorem pbe_not_mem_enemyLoopTrace : ∀ n, TickEvent.playerBulletsVsEnemies ∉ enemyLoopTrace n := by
  intro n
  induction n with
  | zero => simp [enemyLoopTrace]
  | succ m ih => simp [enemyLoopTrace, ih]

theorem evPos_steer_lt_fire : ∀ n i, i < n →
    evPos (enemyLoopTrace n) (TickEvent.steer i) <
      evPos (enemyLoopTrace n) (TickEvent.fire i) := by
  intro n
  induction n with
  | zero => intro i h; exact absurd h (Nat.not_lt_zero i)
  | succ m ih =>
    intro i h
    rcases Nat.lt_succ_iff_lt_or_eq.mp h with h' | rfl
    · have h1 : TickEvent.steer m ≠ TickEvent.steer i := by simp; omega
      have h2 : TickEvent.orientStep m ≠ TickEvent.steer i := by simp
      have h3 : TickEvent.fire m ≠ TickEvent.steer i := by simp
      have h4 : TickEvent.steer m ≠ TickEvent.fire i := by simp
      have h5 : TickEvent.orientStep m ≠ TickEvent.fire i := by simp
      have h6 : TickEvent.fire m ≠ TickEvent.fire i := by simp; omega
      simp only [enemyLoopTrace, evPos_cons_ne _ _ _ h1, evPos_cons_ne _ _ _ h2,
        evPos_cons_ne _ _ _ h3, evPos_cons_ne _ _ _ h4, evPos_cons_ne _ _ _ h5,
        evPos_cons_ne _ _ _ h6]
      have := ih i h'
      omega
    · have h4 : TickEvent.steer i ≠ TickEvent.fire i := by simp
      have h5 : TickEvent.orientStep i ≠ TickEvent.fire i := by simp
      simp only [enemyLoopTrace, evPos_cons_self, evPos_cons_ne _ _ _ h4,
        evPos_cons_ne _ _ _ h5, evPos_cons_self]
      omega

/-- C4 counterexample: the claim as stated — all steering completes before
any fire-control decision — is false already for two entities: in the trace
of one `update` call over 2 entities, entity 1's fire decision (position 2)
happens strictly before entity 0's steering (position 3). -/
theorem c4_counterexample :
    evPos (updateTrace true 2) (TickEvent.fire 1) <
      evPos (updateTrace true 2) (TickEvent.steer 0) := by
  decide

/-- C4 (amended): within one tick, each entity's steering completes before
that same entity's fire-control decision (not before all others'), and every
fire-control decision completes before projectile advancement, which in turn
precedes the two collision-resolution passes. -/
theorem c4_tick_ordering (n i : ℕ) (h : i < n) :
    evPos (updateTrace true n) (TickEvent.steer i) <
      evPos (updateTrace true n) (TickEvent.fire i) ∧
    evPos (updateTrace true n) (TickEvent.fire i) <
      evPos (updateTrace true n) TickEvent.advanceBullets ∧
    evPos (updateTrace true n) TickEvent.advanceBullets <
      evPos (updateTrace true n) TickEvent.enemyBulletsVsPlayer ∧
    evPos (updateTrace true n) TickEvent.enemyBulletsVsPlayer <
      evPos (updateTrace true n) TickEvent.playerBulletsVsEnemies := by
  have hsteer := steer_mem_enemyLoopTrace n i h
  have hfire := fire_mem_enemyLoopTrace n i h
  have hadv := advance_not_mem_enemyLoopTrace n
  have hebp := ebp_not_mem_enemyLoopTrace n
  have htr : updateTrace true n = enemyLoopTrace n ++
      [TickEvent.advanceBullets, TickEvent.enemyBulletsVsPlayer,
        TickEvent.playerBulletsVsEnemies] := rfl
  rw [htr]
  rw [evPos_append_left _ _ _ hsteer, evPos_append_left _ _ _ hfire,
    evPos_append_right _ _ _ hadv, evPos_append_right _ _ _ hebp]
  have hlen := enemyLoopTrace_length n
  have hfl := evPos_lt_length_of_mem _ _ hfire
  refine ⟨evPos_steer_lt_fire n i h, by omega, ?_⟩
  have e1 : evPos [TickEvent.advanceBullets, TickEvent.enemyBulletsVsPlayer,
      TickEvent.playerBulletsVsEnemies] TickEvent.advanceBullets = 0 := by decide
  have e2 : evPos [TickEvent.advanceBullets, TickEvent.enemyBulletsVsPlayer,
      TickEvent.playerBulletsVsEnemies] TickEvent.enemyBulletsVsPlayer = 1 := by decide
  constructor
  · omega
  · rw [evPos_append_right _ _ _ (pbe_not_mem_enemyLoopTrace n)]
    have e3 : evPos [TickEvent.advanceBullets, TickEvent.enemyBulletsVsPlayer,
        TickEvent.playerBulletsVsEnemies] TickEvent.playerBulletsVsEnemies = 2 := by decide
    omega

/-- C4 witness: the amended per-entity ordering at the concrete one-entity
trace. -/
theorem c4_tick_ordering_witness :
    evPos (updateTrace true 1) (TickEvent.steer 0) <
      evPos (updateTrace true 1) (TickEvent.fire 0) ∧
    evPos (updateTrace true 1) (TickEvent.fire 0) <
      evPos (updateTrace true 1) TickEvent.advanceBullets ∧
    evPos (updateTrace true 1) TickEvent.advanceBullets <
      evPos (updateTrace true 1) TickEvent.enemyBulletsVsPlayer ∧
    evPos (updateTrace true 1) TickEvent.enemyBulletsVsPlayer <
      evPos (updateTrace true 1) TickEvent.playerBulletsVsEnemies :=
  c4_tick_ordering 1 0 (by decide)

/-! ### Fire-control cancellation -/

theorem tryShoot_disabled (env : Env) (k : ℕ) (e : EnemyShip) (p : Vec3) (now : ℚ) :
    tryShoot env k false e p now = (e, [], k) := rfl

theorem entityTick_disabled_spawn (env : Env) (k : ℕ) (all : List EnemyShip)
    (e : EnemyShip) (d : ℚ) (p : Vec3) (obs : List Obstacle) (now : ℚ) :
    (entityTick env k all e d p obs now false).2.1 = [] := by
  simp only [entityTick, tryShoot_disabled]

theorem enemyLoopAux_disabled_spawn (env : Env) (d : ℚ) (p : Vec3)
    (obs : List Obstacle) (now : ℚ) :
    ∀ (n : ℕ) (es : List EnemyShip) (k : ℕ),
      (enemyLoopAux env d p obs now false n es k).2.1 = [] := by
  intro n
  induction n with
  | zero => intro es k; rfl
  | succ m ih =>
    intro es k
    simp only [enemyLoopAux]
    cases es.get? m with
    | none => rfl
    | some e =>
      simp only [entityTick_disabled_spawn, ih, List.nil_append]

theorem update_preserves_fireEnabled (env : Env) (k : ℕ) (sq : Squadron) (d : ℚ)
    (p : Vec3) (pr : ℚ) (pbs : List Bullet) (obs : List Obstacle) (now : ℚ) :
    (Squadron.update env k sq d p pr pbs obs now).squadron.fireEnabled =
      sq.fireEnabled := by
  unfold Squadron.update
  split <;> rfl

theorem update_disabled_spawn (env : Env) (k : ℕ) (sq : Squadron) (d : ℚ)
    (p : Vec3) (pr : ℚ) (pbs : List Bullet) (obs : List Obstacle) (now : ℚ)
    (h : sq.fireEnabled = false) :
    (Squadron.update env k sq d p pr pbs obs now).spawned = [] := by
  unfold Squadron.update
  split
  · rfl
  · simp only [h, enemyLoopAux_disabled_spawn]

theorem runTicks_disabled (env : Env) :
    ∀ (ticks : List TickIn) (sq : Squadron) (k : ℕ), sq.fireEnabled = false →
      (runTicks env sq k ticks).2 = [] ∧
      (runTicks env sq k ticks).1.fireEnabled = false := by
  intro ticks
  induction ticks with
  | nil => intro sq k h; exact ⟨rfl, h⟩
  | cons t rest ih =>
    intro sq k h
    have hpres := update_preserves_fireEnabled env k sq t.delta t.playerPos
      t.playerRadius t.playerBullets t.obstacles t.now
    have hnext : (Squadron.update env k sq t.delta t.playerPos t.playerRadius
        t.playerBullets t.obstacles t.now).squadron.fireEnabled = false := by
      rw [hpres, h]
    have hrest := ih (Squadron.update env k sq t.delta t.playerPos t.playerRadius
      t.playerBullets t.obstacles t.now).squadron
      (Squadron.update env k sq t.delta t.playerPos t.playerRadius t.playerBullets
        t.obstacles t.now).randCounter hnext
    constructor
    · simp only [runTicks, update_disabled_spawn env k sq t.delta t.playerPos
        t.playerRadius t.playerBullets t.obstacles t.now h, hrest.1, List.nil_append]
    · simp only [runTicks, hrest.2]

/-- C6: when the player-destroyed handler runs, fire-control is immediately
forced off while the squadron's entities are untouched, the pending wave
timer is cancelled (so nothing re-enables fire), and durably: any sequence
of subsequent squadron ticks spawns no enemy projectile and leaves
fire-control off. -/
theorem c6_defeat_disables_fire (g : GameState) (env : Env) (k k2 : ℕ)
    (ticks : List TickIn) (p : Vec3) (fo : Option Vec3) (t0 : ℚ) (rb : ℕ) :
    (handlePlayerDestroyed g).squadron.fireEnabled = false ∧
    (handlePlayerDestroyed g).squadron.enemies = g.squadron.enemies ∧
    (handlePlayerDestroyed g).winTimer = none ∧
    fireWinTimer env k2 (handlePlayerDestroyed g) p fo t0 rb =
      handlePlayerDestroyed g ∧
    (runTicks env (handlePlayerDestroyed g).squadron k ticks).2 = [] ∧
    (runTicks env (handlePlayerDestroyed g).squadron k ticks).1.fireEnabled = false := by
  have hfe : (handlePlayerDestroyed g).squadron.fireEnabled = false := by
    unfold handlePlayerDestroyed showResult
    split <;> rfl
  have hen : (handlePlayerDestroyed g).squadron.enemies = g.squadron.enemies := by
    unfold handlePlayerDestroyed showResult
    split <;> rfl
  have hwt : (handlePlayerDestroyed g).winTimer = none := by
    unfold handlePlayerDestroyed showResult
    split <;> rfl
  have hft : fireWinTimer env k2 (handlePlayerDestroyed g) p fo t0 rb =
      handlePlayerDestroyed g := by
    unfold fireWinTimer
    rw [hwt]
  have hrun := runTicks_disabled env ticks (handlePlayerDestroyed g).squadron k hfe
  exact ⟨hfe, hen, hwt, hft, hrun.1, hrun.2⟩

/-! ### Spawn accounting -/

theorem buildSpawnList_length (f i : ℕ) : (buildSpawnList f i).length = f + i := by
  simp [buildSpawnList]

theorem spawnLoop_length (env : Env) (p o : Vec3) (total : ℕ) (t0 : ℚ) (rb : ℕ) :
    ∀ (ts : List EnemyType) (i k : ℕ),
      ((spawnLoop env p o total t0 rb ts i k).1).length = ts.length := by
  intro ts
  induction ts with
  | nil => intro i k; rfl
  | cons t rest ih =>
    intro i k
    simp only [spawnLoop, List.length_cons, ih]

theorem spawnLoop_types (env : Env) (p o : Vec3) (total : ℕ) (t0 : ℚ) (rb : ℕ) :
    ∀ (ts : List EnemyType) (i k : ℕ),
      ((spawnLoop env p o total t0 rb ts i k).1).map (fun e => e.type) = ts := by
  intro ts
  induction ts with
  | nil => intro i k; rfl
  | cons t rest ih =>
    intro i k
    simp only [spawnLoop, List.map_cons, ih]
    rfl

theorem spawnLoop_health (env : Env) (p o : Vec3) (total : ℕ) (t0 : ℚ) (rb : ℕ) :
    ∀ (ts : List EnemyType) (i k : ℕ),
      ∀ e ∈ (spawnLoop env p o total t0 rb ts i k).1,
        e.health = e.archetype.health ∧ e.approachProgress = 0 := by
  intro ts
  induction ts with
  | nil => intro i k e he; simp [spawnLoop] at he
  | cons t rest ih =>
    intro i k e he
    simp only [spawnLoop] at he
    rcases List.mem_cons.mp he with rfl | hmem
    · exact ⟨rfl, rfl⟩
    · exact ih (i + 1) _ e hmem

theorem squadronReset_enemies (env : Env) (k : ℕ) (sq : Squadron) (c : ℕ) (p : Vec3)
    (fo : Option Vec3) (t0 : ℚ) (itc rb : ℕ) :
    ((squadronReset env k sq c p fo t0 itc rb).1).enemies =
      (spawnLoop env p
        (match fo with
          | some f => p.add ((env.normalize (p.sub f)).smul
              (fighterArchetype.speedTarget * approachDuration))
          | none => p.add ⟨0, 0, fighterArchetype.speedTarget * approachDuration⟩)
        (buildSpawnList c itc).length t0 rb (buildSpawnList c itc) 0 k).1 := by
  unfold squadronReset squadronInit
  simp

/-- C8: a squadron reset with requested composition (f fighters, n
interceptors) ends with a live-adversary count of exactly f + n, the spawned
types matching the requested spawn list, and an empty enemy-projectile
list. -/
theorem c8_reset_roundtrip (env : Env) (k : ℕ) (sq : Squadron) (f : ℕ) (p : Vec3)
    (fo : Option Vec3) (t0 : ℚ) (n rb : ℕ) :
    ((squadronReset env k sq f p fo t0 n rb).1).getCount = f + n ∧
    ((squadronReset env k sq f p fo t0 n rb).1).getEnemyTypes = buildSpawnList f n ∧
    ((squadronReset env k sq f p fo t0 n rb).1).bullets = [] := by
  refine ⟨?_, ?_, ?_⟩
  · rw [Squadron.getCount, squadronReset_enemies, spawnLoop_length,
      buildSpawnList_length]
  · rw [Squadron.getEnemyTypes, squadronReset_enemies, spawnLoop_types]
  · unfold squadronReset squadronInit
    simp

/-! ### Wave progression -/

theorem squadronReset_bullets (env : Env) (k : ℕ) (sq : Squadron) (c : ℕ) (p : Vec3)
    (fo : Option Vec3) (t0 : ℚ) (itc rb : ℕ) :
    ((squadronReset env k sq c p fo t0 itc rb).1).bullets = [] := by
  unfold squadronReset squadronInit
  simp

/-- C5: clearing wave 1 with the player alive schedules — after the fixed
10-second reinforcement delay — a respawn with exactly 2 fighters and 0
interceptors and advances the wave counter to 2; when any scheduled wave
timer fires, the player's health is restored to maximum and the squadron is
rebuilt to exactly the scheduled composition with no residual projectiles,
re-activated and re-armed; and clearing the squadron in the state after the
final scripted wave enters Victory. -/
theorem c5_wave_progression :
    (∀ (g : GameState) (t : EnemyType), g.wave = 1 → g.squadron.getCount = 0 →
      g.winPending = false → g.playerDestroyed = false →
        (onEnemyDestroyed g t).wave = 2 ∧
        (onEnemyDestroyed g t).winTimer = some (10000, 2, 0)) ∧
    (∀ (env : Env) (k : ℕ) (g : GameState) (p : Vec3) (fo : Option Vec3) (t0 : ℚ)
      (rb : ℕ) (d : ℚ) (f n : ℕ), g.winTimer = some (d, f, n) →
        (fireWinTimer env k g p fo t0 rb).playerHealth = g.playerMaxHealth ∧
        (fireWinTimer env k g p fo t0 rb).squadron.getCount = f + n ∧
        (fireWinTimer env k g p fo t0 rb).squadron.getEnemyTypes =
          buildSpawnList f n ∧
        (fireWinTimer env k g p fo t0 rb).squadron.bullets = [] ∧
        (fireWinTimer env k g p fo t0 rb).squadron.active = true ∧
        (fireWinTimer env k g p fo t0 rb).squadron.fireEnabled = true ∧
        (fireWinTimer env k g p fo t0 rb).winTimer = none) ∧
    (∀ (g : GameState) (t : EnemyType), g.wave = 6 → g.squadron.getCount = 0 →
      g.winPending = false → g.playerDestroyed = false →
        (onEnemyDestroyed g t).result = some false ∧
        (onEnemyDestroyed g t).winTimer = none) := by
  refine ⟨?_, ?_, ?_⟩
  · intro g t h1 h0 hwp hpd
    unfold onEnemyDestroyed
    rw [if_pos ⟨h0, hwp, hpd⟩]
    unfold advanceWave
    rw [if_pos h1]
    exact ⟨rfl, rfl⟩
  · intro env k g p fo t0 rb d f n h
    simp only [fireWinTimer, h]
    refine ⟨by trivial, ?_, ?_, ?_, by trivial, by trivial, by trivial⟩
    · show ((squadronReset env k g.squadron f p fo t0 n rb).1).enemies.length = f + n
      rw [squadronReset_enemies, spawnLoop_length, buildSpawnList_length]
    · show ((squadronReset env k g.squadron f p fo t0 n rb).1).enemies.map
        (fun e => e.type) = buildSpawnList f n
      rw [squadronReset_enemies, spawnLoop_types]
    · show ((squadronReset env k g.squadron f p fo t0 n rb).1).bullets = []
      exact squadronReset_bullets env k g.squadron f p fo t0 n rb
  · intro g t h6 h0 hwp hpd
    unfold onEnemyDestroyed
    rw [if_pos ⟨h0, hwp, hpd⟩]
    unfold advanceWave
    rw [if_neg (by omega), if_neg (by omega), if_neg (by omega), if_neg (by omega),
      if_neg (by omega)]
    exact ⟨rfl, rfl⟩

/-- C5 witness: from the concrete wave-1 state with an emptied squadron,
the destroyed-event handler schedules (10000 ms, 2 fighters, 0
interceptors); firing that timer heals the player to 100 and rebuilds the
squadron as exactly two fighters with no projectiles. -/
theorem c5_wave_progression_witness :
    (onEnemyDestroyed waveOneState EnemyType.fighter).wave = 2 ∧
    (onEnemyDestroyed waveOneState EnemyType.fighter).winTimer =
      some (10000, 2, 0) ∧
    (fireWinTimer env0 0 (onEnemyDestroyed waveOneState EnemyType.fighter)
      ⟨0, 0, 0⟩ none 0 0).playerHealth = 100 ∧
    (fireWinTimer env0 0 (onEnemyDestroyed waveOneState EnemyType.fighter)
      ⟨0, 0, 0⟩ none 0 0).squadron.getEnemyTypes =
        [EnemyType.fighter, EnemyType.fighter] ∧
    (fireWinTimer env0 0 (onEnemyDestroyed waveOneState EnemyType.fighter)
      ⟨0, 0, 0⟩ none 0 0).squadron.bullets = [] := by
  have h1 := c5_wave_progression.1 waveOneState EnemyType.fighter rfl rfl rfl rfl
  have h2 := c5_wave_progression.2.1 env0 0
    (onEnemyDestroyed waveOneState EnemyType.fighter) ⟨0, 0, 0⟩ none 0 0 10000 2 0 h1.2
  exact ⟨h1.1, h1.2, h2.1, h2.2.2.1, h2.2.2.2.1⟩

/-! ### Destroy operations -/

theorem destroyByRootAux_none (root : ℕ) :
    ∀ es : List EnemyShip, (∀ e ∈ es, e.rootId ≠ root) →
      destroyByRootAux es root = (none, es) := by
  intro es
  induction es with
  | nil => intro _; rfl
  | cons e rest ih =>
    intro h
    have he : e.rootId ≠ root := h e (List.mem_cons_self e rest)
    have hrest : ∀ x ∈ rest, x.rootId ≠ root :=
      fun x hx => h x (List.mem_cons_of_mem e hx)
    simp only [destroyByRootAux, if_neg he, ih hrest]

theorem destroyByRootAux_some (root : ℕ) :
    ∀ (es : List EnemyShip) (t : EnemyType),
      (destroyByRootAux es root).1 = some t →
        (destroyByRootAux es root).2.length + 1 = es.length ∧
        ∃ e ∈ es, e.rootId = root ∧ e.type = t := by
  intro es
  induction es with
  | nil => intro t h; exact absurd h (by simp [destroyByRootAux])
  | cons e rest ih =>
    intro t h
    by_cases he : e.rootId = root
    · simp only [destroyByRootAux, if_pos he] at h ⊢
      cases h
      exact ⟨rfl, e, List.mem_cons_self e rest, he, rfl⟩
    · simp only [destroyByRootAux, if_neg he] at h ⊢
      rcases ih t h with ⟨hlen, e', he', hr, ht⟩
      exact ⟨by simp [hlen.symm], e', List.mem_cons_of_mem e he', hr, ht⟩

/-- C9: the destroy-by-reference and debug-destroy-one operations are total
(they never throw): on an empty squadron, or with a reference matching no
live adversary, they change no squadron state and return the explicit null
result; when they do destroy an adversary they return its archetype tag and
remove exactly that one entity. -/
theorem c9_destroy_safe :
    (∀ sq : Squadron, sq.enemies = [] → debugExplodeOne sq = (none, sq)) ∧
    (∀ (sq : Squadron) (e : EnemyShip) (rest : List EnemyShip),
      sq.enemies = e :: rest →
        debugExplodeOne sq = (some e.type, { sq with enemies := rest })) ∧
    (∀ (sq : Squadron) (root : ℕ), (∀ e ∈ sq.enemies, e.rootId ≠ root) →
      destroyEnemyByRoot sq root = (none, sq)) ∧
    (∀ (sq : Squadron) (root : ℕ) (t : EnemyType) (sq' : Squadron),
      destroyEnemyByRoot sq root = (some t, sq') →
        sq'.getCount + 1 = sq.getCount ∧
        ∃ e ∈ sq.enemies, e.rootId = root ∧ e.type = t) := by
  refine ⟨?_, ?_, ?_, ?_⟩
  · intro sq h
    simp [debugExplodeOne, h]
  · intro sq e rest h
    simp [debugExplodeOne, h]
  · intro sq root h
    simp [destroyEnemyByRoot, destroyByRootAux_none root sq.enemies h]
  · intro sq root t sq' h
    unfold destroyEnemyByRoot at h
    dsimp only at h
    cases haux : (destroyByRootAux sq.enemies root).1 with
    | none => rw [haux] at h; exact absurd h (by simp)
    | some t' =>
      rw [haux] at h
      simp only [Prod.mk.injEq, Option.some.injEq] at h
      rcases h with ⟨rfl, rfl⟩
      rcases destroyByRootAux_some root sq.enemies t' haux with ⟨hlen, e, he, hr, ht⟩
      exact ⟨by simpa [Squadron.getCount] using hlen, e, he, hr, ht⟩

/-- C9 witness: on the empty squadron `debugExplodeOne` is a null no-op; on
the one-fighter squadron a non-matching root reference is a null no-op while
`debugExplodeOne` destroys the fighter and reports its tag. -/
theorem c9_destroy_safe_witness :
    debugExplodeOne (mkSquadron false) = (none, mkSquadron false) ∧
    destroyEnemyByRoot sampleSquadron 5 = (none, sampleSquadron) ∧
    debugExplodeOne sampleSquadron =
      (some EnemyType.fighter, { sampleSquadron with enemies := [] }) := by
  refine ⟨c9_destroy_safe.1 (mkSquadron false) rfl, ?_, ?_⟩
  · refine c9_destroy_safe.2.2.1 sampleSquadron 5 ?_
    intro e he
    simp only [sampleSquadron, List.mem_singleton] at he
    subst he
    simp
  · exact c9_destroy_safe.2.1 sampleSquadron { sampleEnemy with rootId := 7 } [] rfl

/-- C10: the hitbox-margin multiplier is fixed at construction to 0.6 on
mobile and 0.3 on desktop; for a nonnegative bounding radius every hit that
registers under the desktop margin also registers under the mobile margin;
and the converse fails: `marginBullet` (at squared distance 200 from
`wideEnemy`, radius 10) hits on mobile (radius 16) but misses on desktop
(radius 13). -/
theorem c10_hitbox_margin :
    ((mkSquadron true).hitboxMultiplier = 0.6 ∧
      (mkSquadron false).hitboxMultiplier = 0.3) ∧
    (∀ (e : EnemyShip) (b : Bullet), 0 ≤ e.boundingRadius →
      hitTest (mkSquadron false).hitboxMultiplier e b = true →
      hitTest (mkSquadron true).hitboxMultiplier e b = true) ∧
    (hitTest (mkSquadron true).hitboxMultiplier wideEnemy marginBullet = true ∧
      hitTest (mkSquadron false).hitboxMultiplier wideEnemy marginBullet = false) := by
  refine ⟨⟨rfl, rfl⟩, ?_, ?_, ?_⟩
  · intro e b hr h
    have hp := of_decide_eq_true h
    apply decide_eq_true
    have hm : (mkSquadron false).hitboxMultiplier = 0.3 := rfl
    rw [hm] at hp
    have hm2 : (mkSquadron true).hitboxMultiplier = 0.6 := rfl
    rw [hm2]
    nlinarith [hp, hr]
  · simp only [hitTest, mkSquadron, wideEnemy, sampleEnemy, marginBullet, Vec3.sub,
      Vec3.normSq, Vec3.dot, decide_eq_true_eq]
    norm_num
  · simp only [hitTest, mkSquadron, wideEnemy, sampleEnemy, marginBullet, Vec3.sub,
      Vec3.normSq, Vec3.dot, decide_eq_false_iff_not]
    norm_num

/-- C10 witness: a bullet dead-centre on `wideEnemy` hits under the desktop
margin, hence (by the monotonicity part of C10) under the mobile margin. -/
theorem c10_hitbox_margin_witness :
    hitTest (mkSquadron true).hitboxMultiplier wideEnemy sampleBullet = true :=
  c10_hitbox_margin.2.1 wideEnemy sampleBullet
    (by norm_num [wideEnemy, sampleEnemy])
    (by
      simp only [hitTest, mkSquadron, wideEnemy, sampleEnemy, sampleBullet, Vec3.sub,
        Vec3.normSq, Vec3.dot, decide_eq_true_eq]
      norm_num)

/-! ### Fire control -/

theorem spawnOne_life (env : Env) (k : ℕ) (e : EnemyShip) (fwd p off : Vec3) :
    ((spawnOne env k e fwd p off).1).life = e.archetype.bulletLife := by
  unfold spawnOne
  split <;> rfl

theorem spawnLaserGo_length (env : Env) (e : EnemyShip) (fwd p : Vec3) :
    ∀ (offs : List Vec3) (k : ℕ),
      ((spawnLaserGo env e fwd p offs k).1).length = offs.length := by
  intro offs
  induction offs with
  | nil => intro k; rfl
  | cons o rest ih =>
    intro k
    simp only [spawnLaserGo, List.length_cons, ih]

theorem spawnLaserGo_life (env : Env) (e : EnemyShip) (fwd p : Vec3) :
    ∀ (offs : List Vec3) (k : ℕ), ∀ b ∈ (spawnLaserGo env e fwd p offs k).1,
      b.life = e.archetype.bulletLife := by
  intro offs
  induction offs with
  | nil => intro k b hb; simp [spawnLaserGo] at hb
  | cons o rest ih =>
    intro k b hb
    simp only [spawnLaserGo] at hb
    rcases List.mem_cons.mp hb with rfl | hmem
    · exact spawnOne_life env k e fwd p o
    · exact ih _ b hmem

theorem randFloat_range (u low high : ℚ) (h0 : 0 ≤ u) (h1 : u < 1) (hle : low ≤ high) :
    low ≤ randFloat u low high ∧ randFloat u low high ≤ high := by
  unfold randFloat
  constructor <;> nlinarith

theorem randFloatSpread_abs (u s : ℚ) (h0 : 0 ≤ u) (h1 : u ≤ 1) (hs : 0 ≤ s) :
    |randFloatSpread u s| ≤ s / 2 := by
  unfold randFloatSpread
  rw [abs_le]
  constructor <;> nlinarith

theorem tryShoot_fires (env : Env) (k : ℕ) (e : EnemyShip) (p : Vec3) (now : ℚ)
    (h1 : 1 ≤ e.approachProgress) (h2 : e.fireDelay ≤ now - e.lastShot)
    (h3 : (0.78 : ℚ) ≤ (e.orient ⟨0, 0, -1⟩).dot (env.normalize (p.sub e.position))) :
    tryShoot env k true e p now =
      ({ e with lastShot := now,
                fireDelay := randFloat (env.rand k) e.archetype.fireDelayRange.1
                  e.archetype.fireDelayRange.2 },
       (spawnLaser env (k + 1)
         { e with lastShot := now,
                  fireDelay := randFloat (env.rand k) e.archetype.fireDelayRange.1
                    e.archetype.fireDelayRange.2 } (e.orient ⟨0, 0, -1⟩) p).1,
       (spawnLaser env (k + 1)
         { e with lastShot := now,
                  fireDelay := randFloat (env.rand k) e.archetype.fireDelayRange.1
                    e.archetype.fireDelayRange.2 } (e.orient ⟨0, 0, -1⟩) p).2) := by
  unfold tryShoot
  rw [if_neg (by simp), if_neg (not_lt.mpr h1), if_neg (not_lt.mpr h2)]
  dsimp only
  rw [if_neg (not_lt.mpr h3)]

/-- C2: a shot is emitted only when all four gates pass — fire enabled,
approach complete, cooldown expired, and the facing·to-player dot product at
least 0.78; on a fire event exactly one projectile is spawned per muzzle
offset, each with lifetime equal to the archetype projectile lifetime; the
new fire delay (a `randFloat` over the archetype range) lies in
[min, max] for any in-range draw; each muzzle independently becomes a
deliberate miss when its draw is < 0.5, displacing the target by the drawn
random direction times a radius 10 + draw·12 ∈ [10, 22), and otherwise an
aimed shot whose target is jittered per axis by `randFloatSpread` of the
archetype aim spread, bounded by half the spread; and the spawned velocity —
normalized aim direction times archetype bullet speed — has squared norm
exactly the squared archetype speed whenever the aim offset is nonzero and
the length oracle is exact on it. -/
theorem c2_fire_control :
    (∀ (env : Env) (k : ℕ) (fe : Bool) (e : EnemyShip) (p : Vec3) (now : ℚ),
      (tryShoot env k fe e p now).2.1 ≠ [] →
        fe = true ∧ 1 ≤ e.approachProgress ∧ e.fireDelay ≤ now - e.lastShot ∧
        (0.78 : ℚ) ≤ (e.orient ⟨0, 0, -1⟩).dot (env.normalize (p.sub e.position))) ∧
    (∀ (env : Env) (k : ℕ) (e : EnemyShip) (p : Vec3) (now : ℚ),
      1 ≤ e.approachProgress → e.fireDelay ≤ now - e.lastShot →
      (0.78 : ℚ) ≤ (e.orient ⟨0, 0, -1⟩).dot (env.normalize (p.sub e.position)) →
        ((tryShoot env k true e p now).2.1).length =
          e.archetype.muzzleOffsets.length ∧
        (∀ b ∈ (tryShoot env k true e p now).2.1,
          b.life = e.archetype.bulletLife) ∧
        (0 ≤ env.rand k → env.rand k < 1 →
          e.archetype.fireDelayRange.1 ≤ e.archetype.fireDelayRange.2 →
          e.archetype.fireDelayRange.1 ≤ (tryShoot env k true e p now).1.fireDelay ∧
          (tryShoot env k true e p now).1.fireDelay ≤
            e.archetype.fireDelayRange.2)) ∧
    (∀ (env : Env) (k : ℕ) (e : EnemyShip) (fwd p off : Vec3),
      (env.rand k < 0.5 →
        (spawnOne env k e fwd p off).1.velocity =
          (env.normalize ((p.add ((env.randomDirection (k + 2)).smul
            (10 + env.rand (k + 1) * 12))).sub
              ((e.position.add (e.orient off)).add (fwd.smul 1.4)))).smul
            e.archetype.bulletSpeed ∧
        (0 ≤ env.rand (k + 1) → env.rand (k + 1) < 1 →
          10 ≤ 10 + env.rand (k + 1) * 12 ∧ 10 + env.rand (k + 1) * 12 < 22)) ∧
      (¬ env.rand k < 0.5 →
        (spawnOne env k e fwd p off).1.velocity =
          (env.normalize ((p.add
            ⟨randFloatSpread (env.rand (k + 1)) e.archetype.aimSpread,
              randFloatSpread (env.rand (k + 2)) e.archetype.aimSpread,
              randFloatSpread (env.rand (k + 3)) e.archetype.aimSpread⟩).sub
              ((e.position.add (e.orient off)).add (fwd.smul 1.4)))).smul
            e.archetype.bulletSpeed ∧
        (∀ u : ℚ, 0 ≤ u → u ≤ 1 → 0 ≤ e.archetype.aimSpread →
          |randFloatSpread u e.archetype.aimSpread| ≤ e.archetype.aimSpread / 2))) ∧
    (∀ (env : Env) (v : Vec3) (c : ℚ),
      env.length v * env.length v = v.normSq → ¬ v.normSq = 0 →
        Vec3.normSq ((env.normalize v).smul c) = c * c) := by
  refine ⟨?_, ?_, ?_, ?_⟩
  · intro env k fe e p now h
    unfold tryShoot at h
    by_cases hfe : fe = false
    · rw [if_pos hfe] at h; exact absurd rfl h
    · rw [if_neg hfe] at h
      by_cases hap : e.approachProgress < 1
      · rw [if_pos hap] at h; exact absurd rfl h
      · rw [if_neg hap] at h
        by_cases hcd : now - e.lastShot < e.fireDelay
        · rw [if_pos hcd] at h; exact absurd rfl h
        · rw [if_neg hcd] at h
          dsimp only at h
          by_cases hdot : (e.orient ⟨0, 0, -1⟩).dot
              (env.normalize (p.sub e.position)) < 0.78
          · rw [if_pos hdot] at h; exact absurd rfl h
          · exact ⟨Bool.eq_true_of_not_eq_false hfe, not_lt.mp hap, not_lt.mp hcd,
              not_lt.mp hdot⟩
  · intro env k e p now h1 h2 h3
    rw [tryShoot_fires env k e p now h1 h2 h3]
    refine ⟨?_, ?_, ?_⟩
    · simp only [spawnLaser]
      exact spawnLaserGo_length env _ _ p _ (k + 1)
    · intro b hb
      simp only [spawnLaser] at hb
      exact spawnLaserGo_life env
        { e with lastShot := now,
                 fireDelay := randFloat (env.rand k) e.archetype.fireDelayRange.1
                   e.archetype.fireDelayRange.2 }
        (e.orient ⟨0, 0, -1⟩) p e.archetype.muzzleOffsets (k + 1) b hb
    · intro hu0 hu1 hr
      exact randFloat_range (env.rand k) e.archetype.fireDelayRange.1
        e.archetype.fireDelayRange.2 hu0 hu1 hr
  · intro env k e fwd p off
    constructor
    · intro hmiss
      constructor
      · unfold spawnOne
        rw [if_pos hmiss]
      · intro h0 h1
        constructor <;> nlinarith
    · intro hmiss
      constructor
      · unfold spawnOne
        rw [if_neg hmiss]
      · intro u h0 h1 hs
        exact randFloatSpread_abs u e.archetype.aimSpread h0 h1 hs
  · intro env v c hlen hne
    have hl0 : env.length v ≠ 0 := by
      intro h0
      apply hne
      rw [← hlen, h0, mul_zero]
    have hnorm : env.normalize v = v.divScalar (env.length v) := by
      unfold Env.normalize
      dsimp only
      rw [if_neg hl0]
    rw [hnorm]
    unfold Vec3.normSq Vec3.dot at hlen hne ⊢
    unfold Vec3.divScalar Vec3.smul
    dsimp only
    have key : v.x / env.length v * c * (v.x / env.length v * c) +
        v.y / env.length v * c * (v.y / env.length v * c) +
        v.z / env.length v * c * (v.z / env.length v * c) =
        (v.x * v.x + v.y * v.y + v.z * v.z) * (c * c) /
          (env.length v * env.length v) := by
      field_simp
      ring
    rw [key, hlen, mul_comm, mul_div_assoc, div_self hne, mul_one]

/-- C2 witness: `shooterEnemy`, in position and facing the player exactly,
fires at `now = 1000`: two projectiles (one per fighter muzzle), each of
lifetime 4; the redrawn fire delay lands in [800, 1350]; the first muzzle's
deliberate-miss radius (draw ¼) lies in [10, 22); and the normalized aim
vector `⟨0,0,-5⟩` scaled by speed 260 has squared norm 260². -/
theorem c2_fire_control_witness :
    ((tryShoot env2 0 true shooterEnemy ⟨0, 0, 0⟩ 1000).2.1).length = 2 ∧
    (∀ b ∈ (tryShoot env2 0 true shooterEnemy ⟨0, 0, 0⟩ 1000).2.1,
      b.life = 4) ∧
    ((800 : ℚ) ≤ (tryShoot env2 0 true shooterEnemy ⟨0, 0, 0⟩ 1000).1.fireDelay ∧
      (tryShoot env2 0 true shooterEnemy ⟨0, 0, 0⟩ 1000).1.fireDelay ≤ 1350) ∧
    (0.78 : ℚ) ≤ (shooterEnemy.orient ⟨0, 0, -1⟩).dot
      (env2.normalize (Vec3.sub ⟨0, 0, 0⟩ shooterEnemy.position)) ∧
    ((10 : ℚ) ≤ 10 + env2.rand 2 * 12 ∧ 10 + env2.rand 2 * 12 < 22) ∧
    Vec3.normSq ((env2.normalize ⟨0, 0, -5⟩).smul 260) = 260 * 260 := by
  have hdot : (0.78 : ℚ) ≤ (shooterEnemy.orient ⟨0, 0, -1⟩).dot
      (env2.normalize (Vec3.sub ⟨0, 0, 0⟩ shooterEnemy.position)) := by
    norm_num [shooterEnemy, env2, Env.normalize, Vec3.sub, Vec3.divScalar, Vec3.dot]
  have h2appl := c2_fire_control.2.1 env2 0 shooterEnemy ⟨0, 0, 0⟩ 1000
    (by norm_num [shooterEnemy]) (by norm_num [shooterEnemy]) hdot
  have hne2 : (tryShoot env2 0 true shooterEnemy ⟨0, 0, 0⟩ 1000).2.1 ≠ [] := by
    intro hc
    have hl := h2appl.1
    rw [hc] at hl
    norm_num [shooterEnemy, fighterArchetype] at hl
  have hgate := c2_fire_control.1 env2 0 true shooterEnemy ⟨0, 0, 0⟩ 1000 hne2
  have hmiss := (c2_fire_control.2.2.1 env2 1 shooterEnemy ⟨0, 0, -1⟩ ⟨0, 0, 0⟩
    ⟨1.8, -0.2, -2.6⟩).1 (by norm_num [env2])
  have hspeed := c2_fire_control.2.2.2 env2 ⟨0, 0, -5⟩ 260
    (by norm_num [env2, Vec3.normSq, Vec3.dot])
    (by norm_num [Vec3.normSq, Vec3.dot])
  exact ⟨h2appl.1, h2appl.2.1,
    h2appl.2.2 (by norm_num [env2]) (by norm_num [env2])
      (by norm_num [shooterEnemy, fighterArchetype]),
    hgate.2.2.2, hmiss.2 (by norm_num [env2]) (by norm_num [env2]), hspeed⟩

end StarWars
